import Mathlib

/-!
# Adaptive cruise control

A shallow embedding of `src/AdaptiveCruiseControl.cpp` and the properties its
specification states about it.

Modelling conventions:

* `double` is modelled by the exact rationals `ℚ`: the member functions without a suffix
  compute in exact arithmetic, and the statements about them are statements of exact
  arithmetic.
* Where rounding decides a property (the zero-time-step cycle), the member functions
  with the suffix `64` compute as the program does in IEEE 754 binary64: every arithmetic
  operation is followed by `round64`, rounding to nearest with ties to even, and the
  literal `3.6` is its nearest binary64 number.  Infinities and NaN are outside both models.
* The class `AdaptiveCruiseControl` becomes a structure with the same five fields and
  every member function becomes a function returning the new object.
* Console output (`std::cout`, `std::cerr`) has no effect on the object and is dropped.
* The member function named "initialize" in the source is called `initialise` here,
  because the source spelling is a reserved word of Lean.
-/

namespace ACC

/-! ## Constants (source lines 8-12) -/

/-- Speed ceiling in km/h. -/
def MAX_SPEED : ℚ := 150.0

/-- Smallest following distance in metres. -/
def MIN_FOLLOW_DISTANCE : ℚ := 5.0

/-- Largest acceleration command in m/s². -/
def MAX_ACCELERATION : ℚ := 3.0

/-- Strongest braking command in m/s². -/
def MAX_DECELERATION : ℚ := -5.0

/-- Time gap to the lead vehicle in seconds. -/
def TIME_GAP : ℚ := 1.5

/-! ## Library functions used by the source -/

/-- The C++ `std::max(a, b)`: it returns `b` when `a < b` and `a` otherwise. -/
def stdMax (a b : ℚ) : ℚ := if a < b then b else a

/-- The C++ `std::min(a, b)`: it returns `b` when `b < a` and `a` otherwise. -/
def stdMin (a b : ℚ) : ℚ := if b < a then b else a

/-! ## Data model (source lines 15-35) -/

/-- Cruise control state, `enum class ACCState`. -/
inductive ACCState where
  | OFF
  | STANDBY
  | ACTIVE
  | ERROR
deriving DecidableEq, Repr

/-- Sensor reading of the leading vehicle, `struct LeadVehicle`. -/
structure LeadVehicle where
  /-- metres to the lead vehicle -/
  distance : ℚ
  /-- speed of the lead vehicle in km/h -/
  speed : ℚ
  detected : Bool
deriving DecidableEq, Repr

/-- Private members of `class AdaptiveCruiseControl`. -/
structure AdaptiveCruiseControl where
  state : ACCState
  /-- km/h -/
  currentSpeed : ℚ
  /-- km/h -/
  desiredSpeed : ℚ
  /-- m/s² -/
  accelCommand : ℚ
  leadVehicle : LeadVehicle
deriving DecidableEq, Repr

namespace AdaptiveCruiseControl

/-! ## Member functions (source lines 38-175) -/

/-- The constructor `AdaptiveCruiseControl()` (lines 38-40). -/
def construct : AdaptiveCruiseControl :=
  { state := ACCState.OFF
    currentSpeed := 0.0
    desiredSpeed := 0.0
    accelCommand := 0.0
    leadVehicle := { distance := 0.0, speed := 0.0, detected := false } }

/-- Member function "initialize" (lines 43-49). -/
def initialise (c : AdaptiveCruiseControl) (initialSpeed : ℚ) : AdaptiveCruiseControl :=
  { c with
    currentSpeed := initialSpeed
    desiredSpeed := initialSpeed
    accelCommand := 0.0
    state := ACCState.STANDBY }

/-- Member function `setDesiredSpeed` (lines 52-60). -/
def setDesiredSpeed (c : AdaptiveCruiseControl) (speed : ℚ) : AdaptiveCruiseControl :=
  if speed > 0 ∧ speed ≤ MAX_SPEED then
    { c with desiredSpeed := speed }
  else
    { c with state := ACCState.ERROR }

/-- Member function `updateLeadVehicle` (lines 63-67). -/
def updateLeadVehicle (c : AdaptiveCruiseControl) (distance speed : ℚ) (detected : Bool) :
    AdaptiveCruiseControl :=
  { c with leadVehicle := { distance := distance, speed := speed, detected := detected } }

/-- Member function `calculateSafeDistance` (lines 70-74). -/
def calculateSafeDistance (c : AdaptiveCruiseControl) : ℚ :=
  let speed_m_s := c.currentSpeed / 3.6
  stdMax MIN_FOLLOW_DISTANCE (speed_m_s * TIME_GAP)

/-- Member function `updateAccelerationCommand` (lines 77-113). -/
def updateAccelerationCommand (c : AdaptiveCruiseControl) : AdaptiveCruiseControl :=
  if c.state = ACCState.ERROR then
    { c with accelCommand := 0.0 }
  else if c.leadVehicle.detected then
    let safeDistance := c.calculateSafeDistance
    if c.leadVehicle.distance < safeDistance then
      { c with accelCommand := MAX_DECELERATION }
    else if c.leadVehicle.distance < safeDistance + 10 then
      let relativeSpeed := (c.leadVehicle.speed - c.currentSpeed) / 3.6
      { c with accelCommand := stdMax MAX_DECELERATION (stdMin MAX_ACCELERATION relativeSpeed) }
    else
      if c.currentSpeed < c.desiredSpeed then
        { c with accelCommand := MAX_ACCELERATION / 2 }
      else if c.currentSpeed > c.desiredSpeed then
        { c with accelCommand := MAX_DECELERATION / 2 }
      else
        { c with accelCommand := 0.0 }
  else
    if c.currentSpeed < c.desiredSpeed then
      { c with accelCommand := MAX_ACCELERATION / 2 }
    else if c.currentSpeed > c.desiredSpeed then
      { c with accelCommand := MAX_DECELERATION / 2 }
    else
      { c with accelCommand := 0.0 }

/-- Member function `updateSpeed` (lines 116-133). -/
def updateSpeed (c : AdaptiveCruiseControl) (deltaTime : ℚ) : AdaptiveCruiseControl :=
  let speed_m_s := c.currentSpeed / 3.6
  let speed_m_s := speed_m_s + c.accelCommand * deltaTime
  let speed_m_s := stdMax 0.0 speed_m_s
  let currentSpeed := speed_m_s * 3.6
  if currentSpeed > MAX_SPEED then
    { c with currentSpeed := MAX_SPEED }
  else
    { c with currentSpeed := currentSpeed }

/-- Member function `start` (lines 136-143). -/
def start (c : AdaptiveCruiseControl) : AdaptiveCruiseControl :=
  if c.state = ACCState.STANDBY then
    { c with state := ACCState.ACTIVE }
  else
    c

/-- Member function `stop` (lines 146-152). -/
def stop (c : AdaptiveCruiseControl) : AdaptiveCruiseControl :=
  if c.state = ACCState.ACTIVE then
    { c with state := ACCState.STANDBY, accelCommand := 0.0 }
  else
    c

/-- Member function `update` (lines 171-175). -/
def update (c : AdaptiveCruiseControl) (deltaTime : ℚ) (sensorData : LeadVehicle) :
    AdaptiveCruiseControl :=
  let c := c.updateLeadVehicle sensorData.distance sensorData.speed sensorData.detected
  let c := c.updateAccelerationCommand
  c.updateSpeed deltaTime

end AdaptiveCruiseControl

/-! ## Call sequences

The public interface of the class, as data: a caller can only change a controller through
these five member functions, so a reachable controller is `run construct ops` for a list
`ops` of calls. -/

/-- One call of a public, mutating member function together with its arguments. -/
inductive Call where
  | initialise (initialSpeed : ℚ)
  | setDesiredSpeed (speed : ℚ)
  | start
  | stop
  | update (deltaTime : ℚ) (sensorData : LeadVehicle)
deriving DecidableEq, Repr

/-- The effect of one call on a controller. -/
def Call.apply : Call → AdaptiveCruiseControl → AdaptiveCruiseControl
  | Call.initialise v, c => c.initialise v
  | Call.setDesiredSpeed v, c => c.setDesiredSpeed v
  | Call.start, c => c.start
  | Call.stop, c => c.stop
  | Call.update dt obs, c => c.update dt obs

/-- The effect of a finite sequence of calls, performed left to right. -/
def run (c : AdaptiveCruiseControl) : List Call → AdaptiveCruiseControl
  | [] => c
  | op :: ops => run (op.apply c) ops

/-- Whether a call is a call of "initialize", the only member function that resets the
state field. -/
def Call.isInitialise : Call → Bool
  | Call.initialise _ => true
  | _ => false

/-- The controller of `main` (lines 192-195) when its loop begins: constructed, initialised
at 80 km/h, desired speed 100 km/h, started. -/
def harnessStart : AdaptiveCruiseControl :=
  ((AdaptiveCruiseControl.construct.initialise 80.0).setDesiredSpeed 100.0).start

/-! ## Derived notions

Neither definition below is a function of the source.  `freeCruiseCommand` names the
comparison that the source writes out twice; `policyCommand` is the acceleration-command
policy in the words of the specification, against which the source is compared. -/

/-- The three outcomes of the free-cruise comparison of lines 95-101 and 105-111. -/
def freeCruiseCommand (currentSpeed desiredSpeed : ℚ) : ℚ :=
  if currentSpeed < desiredSpeed then MAX_ACCELERATION / 2
  else if currentSpeed > desiredSpeed then MAX_DECELERATION / 2
  else 0.0

/-- The specification's `clamp(x, lo, hi)`. -/
def clamp (x lo hi : ℚ) : ℚ := max lo (min hi x)

/-- The acceleration-command policy as the specification words it (section 4.2): inputs are
the state, the current and desired speeds and the last observation; the first matching branch
wins.  Step 1 is the Error fail-safe, step 2 the safe distance, step 3a full braking, step 3b
the speed-matching band, steps 3c and 4 free cruise at half authority. -/
def policyCommand (state : ACCState) (currentSpeedKmh desiredSpeedKmh : ℚ)
    (lastObservation : LeadVehicle) : ℚ :=
  if state = ACCState.ERROR then 0
  else
    let safeDistance := max MIN_FOLLOW_DISTANCE ((currentSpeedKmh / 3.6) * TIME_GAP)
    if lastObservation.detected = true ∧ lastObservation.distance < safeDistance then
      MAX_DECELERATION
    else if lastObservation.detected = true ∧ lastObservation.distance < safeDistance + 10 then
      clamp ((lastObservation.speed - currentSpeedKmh) / 3.6) MAX_DECELERATION MAX_ACCELERATION
    else if currentSpeedKmh < desiredSpeedKmh then MAX_ACCELERATION / 2
    else if currentSpeedKmh > desiredSpeedKmh then MAX_DECELERATION / 2
    else 0

/-- Invariant used for the free-cruise analysis of the harness configuration: not in Error,
desired speed 100, and the current speed on the lattice `80 + 0.18 k` (`k` an integer)
within `[80, 101]`.  It is a proof device, not a function of the source. -/
def CruiseInv (c : AdaptiveCruiseControl) : Prop :=
  c.state ≠ ACCState.ERROR ∧ c.desiredSpeed = 100 ∧
    (∃ k : ℤ, c.currentSpeed = 80 + 0.18 * k) ∧ 80 ≤ c.currentSpeed ∧ c.currentSpeed ≤ 101

/-! ## Binary64 arithmetic

The program computes in `double`, IEEE 754 binary64 with the default rounding mode.  A finite
binary64 number is a rational `k * 2 ^ j` with `|k| < 2 ^ 53` and `j ≥ -1074`, and every
arithmetic operation returns the exact result rounded to the nearest such number, ties going
to the even significand.  Each operation of the source is rounded on its own (no fused
multiply-add, no extended precision; with a zero time step a fused `a * dt + s` gives the same
result).  Overflow to infinity is not modelled (no operation below can overflow for speeds in
`[0, 150]`), and the two zeros are identified. -/

/-- Rounding of a rational to the nearest integer, ties to the even integer. -/
def roundHalfEven (q : ℚ) : ℤ :=
  if q - ⌊q⌋ < 1 / 2 then ⌊q⌋
  else if 1 / 2 < q - ⌊q⌋ then ⌊q⌋ + 1
  else if ⌊q⌋ % 2 = 0 then ⌊q⌋
  else ⌊q⌋ + 1

/-- Exponent of the unit in the last place of binary64 at `x`: with 53 significant bits it
is `⌊log₂ |x|⌋ - 52`, and for subnormal numbers it stays at `-1022 - 52 = -1074`. -/
def ulpExponent64 (x : ℚ) : ℤ := max (Int.log 2 |x|) (-1022) - 52

/-- The binary64 number nearest to `x`, ties to even: `x` is rounded to a multiple of its
unit in the last place. -/
def round64 (x : ℚ) : ℚ :=
  (roundHalfEven (x / 2 ^ ulpExponent64 x) : ℚ) * 2 ^ ulpExponent64 x

/-- The `double` sum `a + b`. -/
def add64 (a b : ℚ) : ℚ := round64 (a + b)

/-- The `double` difference `a - b`. -/
def sub64 (a b : ℚ) : ℚ := round64 (a - b)

/-- The `double` product `a * b`. -/
def mul64 (a b : ℚ) : ℚ := round64 (a * b)

/-- The `double` quotient `a / b`. -/
def div64 (a b : ℚ) : ℚ := round64 (a / b)

/-- The `double` literal `3.6` of lines 72, 91, 118 and 127: not 18/5 but the binary64
number nearest to it. -/
def lit3_6 : ℚ := round64 3.6

namespace AdaptiveCruiseControl

/-- Member function `calculateSafeDistance` (lines 70-74), computed in binary64. -/
def calculateSafeDistance64 (c : AdaptiveCruiseControl) : ℚ :=
  let speed_m_s := div64 c.currentSpeed lit3_6
  stdMax MIN_FOLLOW_DISTANCE (mul64 speed_m_s TIME_GAP)

/-- Member function `updateAccelerationCommand` (lines 77-113), computed in binary64. -/
def updateAccelerationCommand64 (c : AdaptiveCruiseControl) : AdaptiveCruiseControl :=
  if c.state = ACCState.ERROR then
    { c with accelCommand := 0.0 }
  else if c.leadVehicle.detected then
    let safeDistance := c.calculateSafeDistance64
    if c.leadVehicle.distance < safeDistance then
      { c with accelCommand := MAX_DECELERATION }
    else if c.leadVehicle.distance < add64 safeDistance 10 then
      let relativeSpeed := div64 (sub64 c.leadVehicle.speed c.currentSpeed) lit3_6
      { c with accelCommand := stdMax MAX_DECELERATION (stdMin MAX_ACCELERATION relativeSpeed) }
    else
      if c.currentSpeed < c.desiredSpeed then
        { c with accelCommand := div64 MAX_ACCELERATION 2 }
      else if c.currentSpeed > c.desiredSpeed then
        { c with accelCommand := div64 MAX_DECELERATION 2 }
      else
        { c with accelCommand := 0.0 }
  else
    if c.currentSpeed < c.desiredSpeed then
      { c with accelCommand := div64 MAX_ACCELERATION 2 }
    else if c.currentSpeed > c.desiredSpeed then
      { c with accelCommand := div64 MAX_DECELERATION 2 }
    else
      { c with accelCommand := 0.0 }

/-- Member function `updateSpeed` (lines 116-133), computed in binary64. -/
def updateSpeed64 (c : AdaptiveCruiseControl) (deltaTime : ℚ) : AdaptiveCruiseControl :=
  let speed_m_s := div64 c.currentSpeed lit3_6
  let speed_m_s := add64 speed_m_s (mul64 c.accelCommand deltaTime)
  let speed_m_s := stdMax 0.0 speed_m_s
  let currentSpeed := mul64 speed_m_s lit3_6
  if currentSpeed > MAX_SPEED then
    { c with currentSpeed := MAX_SPEED }
  else
    { c with currentSpeed := currentSpeed }

/-- Member function `update` (lines 171-175), computed in binary64. -/
def update64 (c : AdaptiveCruiseControl) (deltaTime : ℚ) (sensorData : LeadVehicle) :
    AdaptiveCruiseControl :=
  let c := c.updateLeadVehicle sensorData.distance sensorData.speed sensorData.detected
  let c := c.updateAccelerationCommand64
  c.updateSpeed64 deltaTime

end AdaptiveCruiseControl

/-! ## Auxiliary facts -/

open AdaptiveCruiseControl

theorem stdMax_eq_max (a b : ℚ) : stdMax a b = max a b := by
  unfold stdMax
  split_ifs with h
  · exact (max_eq_right h.le).symm
  · exact (max_eq_left (not_lt.mp h)).symm

theorem stdMin_eq_min (a b : ℚ) : stdMin a b = min a b := by
  unfold stdMin
  split_ifs with h
  · exact (min_eq_right h.le).symm
  · exact (min_eq_left (not_lt.mp h)).symm

theorem updateSpeed_state (c : AdaptiveCruiseControl) (dt : ℚ) :
    (c.updateSpeed dt).state = c.state := by
  simp only [updateSpeed]; split_ifs <;> rfl

theorem updateSpeed_desiredSpeed (c : AdaptiveCruiseControl) (dt : ℚ) :
    (c.updateSpeed dt).desiredSpeed = c.desiredSpeed := by
  simp only [updateSpeed]; split_ifs <;> rfl

theorem updateSpeed_accelCommand (c : AdaptiveCruiseControl) (dt : ℚ) :
    (c.updateSpeed dt).accelCommand = c.accelCommand := by
  simp only [updateSpeed]; split_ifs <;> rfl

theorem updateSpeed_leadVehicle (c : AdaptiveCruiseControl) (dt : ℚ) :
    (c.updateSpeed dt).leadVehicle = c.leadVehicle := by
  simp only [updateSpeed]; split_ifs <;> rfl

theorem updateSpeed_currentSpeed (c : AdaptiveCruiseControl) (dt : ℚ) :
    (c.updateSpeed dt).currentSpeed
      = min 150 (3.6 * max 0 (c.currentSpeed / 3.6 + c.accelCommand * dt)) := by
  simp only [updateSpeed, stdMax_eq_max, MAX_SPEED]
  have e : ∀ x : ℚ, x * 3.6 = 3.6 * x := fun x => mul_comm _ _
  have z : (0.0 : ℚ) = 0 := by norm_num
  rw [e, z]
  generalize 3.6 * max (0 : ℚ) (c.currentSpeed / 3.6 + c.accelCommand * dt) = m
  have k : (150.0 : ℚ) = 150 := by norm_num
  rw [k]
  split_ifs with h
  · exact (min_eq_left h.le).symm
  · exact (min_eq_right (not_lt.mp h)).symm

theorem updateAccelerationCommand_state (c : AdaptiveCruiseControl) :
    c.updateAccelerationCommand.state = c.state := by
  simp only [updateAccelerationCommand]; split_ifs <;> rfl

theorem updateAccelerationCommand_currentSpeed (c : AdaptiveCruiseControl) :
    c.updateAccelerationCommand.currentSpeed = c.currentSpeed := by
  simp only [updateAccelerationCommand]; split_ifs <;> rfl

theorem updateAccelerationCommand_desiredSpeed (c : AdaptiveCruiseControl) :
    c.updateAccelerationCommand.desiredSpeed = c.desiredSpeed := by
  simp only [updateAccelerationCommand]; split_ifs <;> rfl

theorem updateAccelerationCommand_leadVehicle (c : AdaptiveCruiseControl) :
    c.updateAccelerationCommand.leadVehicle = c.leadVehicle := by
  simp only [updateAccelerationCommand]; split_ifs <;> rfl

theorem updateAccelerationCommand_accelCommand (c : AdaptiveCruiseControl) :
    c.updateAccelerationCommand.accelCommand =
      if c.state = ACCState.ERROR then 0
      else if c.leadVehicle.detected = true then
        if c.leadVehicle.distance < c.calculateSafeDistance then MAX_DECELERATION
        else if c.leadVehicle.distance < c.calculateSafeDistance + 10 then
          stdMax MAX_DECELERATION
            (stdMin MAX_ACCELERATION ((c.leadVehicle.speed - c.currentSpeed) / 3.6))
        else freeCruiseCommand c.currentSpeed c.desiredSpeed
      else freeCruiseCommand c.currentSpeed c.desiredSpeed := by
  simp only [updateAccelerationCommand, freeCruiseCommand]
  split_ifs <;> first | rfl | norm_num

theorem update_state (c : AdaptiveCruiseControl) (dt : ℚ) (obs : LeadVehicle) :
    (c.update dt obs).state = c.state := by
  simp only [update, updateSpeed_state, updateAccelerationCommand_state, updateLeadVehicle]

theorem update_desiredSpeed (c : AdaptiveCruiseControl) (dt : ℚ) (obs : LeadVehicle) :
    (c.update dt obs).desiredSpeed = c.desiredSpeed := by
  simp only [update, updateSpeed_desiredSpeed, updateAccelerationCommand_desiredSpeed,
    updateLeadVehicle]

theorem update_leadVehicle (c : AdaptiveCruiseControl) (dt : ℚ) (obs : LeadVehicle) :
    (c.update dt obs).leadVehicle = obs := by
  simp only [update, updateSpeed_leadVehicle, updateAccelerationCommand_leadVehicle,
    updateLeadVehicle]

/-- The command that `update` stores, read off the branches of
`updateAccelerationCommand` after the observation has been stored. -/
theorem update_accelCommand (c : AdaptiveCruiseControl) (dt : ℚ) (obs : LeadVehicle) :
    (c.update dt obs).accelCommand =
      if c.state = ACCState.ERROR then 0
      else if obs.detected = true then
        if obs.distance < c.calculateSafeDistance then MAX_DECELERATION
        else if obs.distance < c.calculateSafeDistance + 10 then
          stdMax MAX_DECELERATION (stdMin MAX_ACCELERATION ((obs.speed - c.currentSpeed) / 3.6))
        else freeCruiseCommand c.currentSpeed c.desiredSpeed
      else freeCruiseCommand c.currentSpeed c.desiredSpeed := by
  simp only [update, updateSpeed_accelCommand, updateAccelerationCommand_accelCommand,
    updateLeadVehicle, calculateSafeDistance]

/-- The speed that `update` stores: the integrator applied to the old speed and the new
command. -/
theorem update_currentSpeed (c : AdaptiveCruiseControl) (dt : ℚ) (obs : LeadVehicle) :
    (c.update dt obs).currentSpeed =
      min 150 (3.6 * max 0 (c.currentSpeed / 3.6 + (c.update dt obs).accelCommand * dt)) := by
  simp only [update, updateSpeed_currentSpeed, updateSpeed_accelCommand,
    updateAccelerationCommand_currentSpeed, updateLeadVehicle]

theorem calculateSafeDistance_eq (c : AdaptiveCruiseControl) :
    c.calculateSafeDistance = max 5.0 (c.currentSpeed / 3.6 * 1.5) := by
  simp only [calculateSafeDistance, stdMax_eq_max, MIN_FOLLOW_DISTANCE, TIME_GAP]

theorem freeCruiseCommand_bounds (x y : ℚ) :
    -5 ≤ freeCruiseCommand x y ∧ freeCruiseCommand x y ≤ 3 := by
  unfold freeCruiseCommand MAX_ACCELERATION MAX_DECELERATION
  split_ifs <;> norm_num

/-- Every command `update` can store lies between the two authority limits. -/
theorem update_accelCommand_bounds (c : AdaptiveCruiseControl) (dt : ℚ) (obs : LeadVehicle) :
    -5 ≤ (c.update dt obs).accelCommand ∧ (c.update dt obs).accelCommand ≤ 3 := by
  rw [update_accelCommand, stdMax_eq_max, stdMin_eq_min]
  have hf := freeCruiseCommand_bounds c.currentSpeed c.desiredSpeed
  have hd : MAX_DECELERATION = -5 := by norm_num [MAX_DECELERATION]
  have ha : MAX_ACCELERATION = 3 := by norm_num [MAX_ACCELERATION]
  rw [hd, ha]
  split_ifs
  · norm_num
  · norm_num
  · exact ⟨le_max_left _ _, max_le (by norm_num) (min_le_left _ _)⟩
  · exact hf
  · exact hf

/-- One call keeps the command within the authority limits. -/
theorem apply_accelCommand_bounds (op : Call) (c : AdaptiveCruiseControl)
    (h : -5 ≤ c.accelCommand ∧ c.accelCommand ≤ 3) :
    -5 ≤ (op.apply c).accelCommand ∧ (op.apply c).accelCommand ≤ 3 := by
  cases op with
  | initialise v => simp only [Call.apply, initialise]; norm_num
  | setDesiredSpeed v =>
    simp only [Call.apply, setDesiredSpeed]
    split_ifs <;> exact h
  | start =>
    simp only [Call.apply, start]
    split_ifs <;> exact h
  | stop =>
    simp only [Call.apply, stop]
    split_ifs
    · norm_num
    · exact h
  | update dt obs => exact update_accelCommand_bounds c dt obs

/-- The harness controller, evaluated. -/
theorem harnessStart_eq :
    harnessStart =
      { state := ACCState.ACTIVE, currentSpeed := 80, desiredSpeed := 100, accelCommand := 0,
        leadVehicle := { distance := 0, speed := 0, detected := false } } := by
  norm_num [harnessStart, construct, initialise, setDesiredSpeed, start, MAX_SPEED]

/-- In Error the command stored by `update` is zero. -/
theorem update_accelCommand_of_error (c : AdaptiveCruiseControl) (dt : ℚ) (obs : LeadVehicle)
    (h : c.state = ACCState.ERROR) : (c.update dt obs).accelCommand = 0 := by
  rw [update_accelCommand, if_pos h]

/-- No call other than "initialize" leaves Error. -/
theorem apply_state_of_error (op : Call) (c : AdaptiveCruiseControl)
    (hop : op.isInitialise = false) (h : c.state = ACCState.ERROR) :
    (op.apply c).state = ACCState.ERROR := by
  cases op with
  | initialise v => simp only [Call.isInitialise, Bool.true_eq_false] at hop
  | setDesiredSpeed v =>
    simp only [Call.apply, setDesiredSpeed]
    split_ifs
    · exact h
    · rfl
  | start =>
    simp only [Call.apply, start]
    rw [if_neg (by rw [h]; decide)]
    exact h
  | stop =>
    simp only [Call.apply, stop]
    rw [if_neg (by rw [h]; decide)]
    exact h
  | update dt obs =>
    simp only [Call.apply]
    rw [update_state]
    exact h

theorem run_append (c : AdaptiveCruiseControl) (xs ys : List Call) :
    run c (xs ++ ys) = run (run c xs) ys := by
  induction xs generalizing c with
  | nil => rfl
  | cons x xs ih => exact ih (x.apply c)

/-- No sequence of calls without "initialize" leaves Error. -/
theorem run_state_of_error (ops : List Call) (c : AdaptiveCruiseControl)
    (hops : ∀ op ∈ ops, op.isInitialise = false) (h : c.state = ACCState.ERROR) :
    (run c ops).state = ACCState.ERROR := by
  induction ops generalizing c with
  | nil => exact h
  | cons op ops ih =>
    exact ih (op.apply c) (fun o ho => hops o (List.mem_cons_of_mem op ho))
      (apply_state_of_error op c (hops op (List.mem_cons_self op ops)) h)

/-- Two controllers with equal fields are equal. -/
theorem eq_of_fields (a b : AdaptiveCruiseControl) (h₁ : a.state = b.state)
    (h₂ : a.currentSpeed = b.currentSpeed) (h₃ : a.desiredSpeed = b.desiredSpeed)
    (h₄ : a.accelCommand = b.accelCommand) (h₅ : a.leadVehicle = b.leadVehicle) : a = b := by
  obtain ⟨s, v, d, k, l⟩ := a
  obtain ⟨s', v', d', k', l'⟩ := b
  simp only at h₁ h₂ h₃ h₄ h₅
  rw [h₁, h₂, h₃, h₄, h₅]

/-- With a zero time step the integrator returns a speed in `[0, 150]` unchanged. -/
theorem update_zero_currentSpeed (c : AdaptiveCruiseControl) (obs : LeadVehicle)
    (h0 : 0 ≤ c.currentSpeed) (h1 : c.currentSpeed ≤ 150) :
    (c.update 0 obs).currentSpeed = c.currentSpeed := by
  rw [update_currentSpeed, mul_zero, add_zero]
  have hm : (0 : ℚ) ≤ c.currentSpeed / 3.6 := div_nonneg h0 (by norm_num)
  rw [max_eq_right hm]
  have hc : (3.6 : ℚ) * (c.currentSpeed / 3.6) = c.currentSpeed := by
    field_simp
  rw [hc, min_eq_right h1]

/-- The integrator when neither clamp is active: the speed changes by `3.6 * a * dt`. -/
theorem integrate_unclamped (v a dt : ℚ) (h0 : 0 ≤ v + 3.6 * a * dt)
    (h1 : v + 3.6 * a * dt ≤ 150) :
    min 150 (3.6 * max 0 (v / 3.6 + a * dt)) = v + 3.6 * a * dt := by
  have e : (3.6 : ℚ) * (v / 3.6 + a * dt) = v + 3.6 * a * dt := by
    field_simp
    ring
  have hm : (0 : ℚ) ≤ v / 3.6 + a * dt := by
    have h36 : (0 : ℚ) < 3.6 := by norm_num
    by_contra hneg
    have := mul_neg_of_pos_of_neg h36 (not_le.mp hneg)
    rw [e] at this
    exact absurd h0 (not_le.mpr this)
  rw [max_eq_right hm, e, min_eq_right h1]

/-- The command of a cycle without a detected lead vehicle, outside Error. -/
theorem update_accelCommand_not_detected (c : AdaptiveCruiseControl) (dt : ℚ)
    (obs : LeadVehicle) (hs : c.state ≠ ACCState.ERROR) (hdet : obs.detected = false) :
    (c.update dt obs).accelCommand = freeCruiseCommand c.currentSpeed c.desiredSpeed := by
  rw [update_accelCommand, if_neg hs, if_neg (by rw [hdet]; decide)]

/-- No speed of the form `80 + 0.18 k` with `k` an integer equals 100. -/
theorem lattice_ne_hundred (k : ℤ) : (80 : ℚ) + 0.18 * k ≠ 100 := by
  intro h
  have h9 : (9 : ℚ) * k = 1000 := by
    norm_num at h
    linarith
  have hz : (9 : ℤ) * k = 1000 := by exact_mod_cast h9
  omega

/-- One free-cruise cycle of 0.1 s with desired speed 100 keeps `CruiseInv`, stores the
command 1.5 or -2.5 and moves the speed by +0.54 or -0.9. -/
theorem cruise_step (c : AdaptiveCruiseControl) (obs : LeadVehicle) (h : CruiseInv c)
    (hdet : obs.detected = false) :
    CruiseInv (c.update 0.1 obs) ∧
      ((c.update 0.1 obs).accelCommand = 1.5 ∨ (c.update 0.1 obs).accelCommand = -2.5) ∧
      ((c.update 0.1 obs).currentSpeed = c.currentSpeed + 0.54 ∨
        (c.update 0.1 obs).currentSpeed = c.currentSpeed - 0.9) := by
  obtain ⟨hs, hd, ⟨k, hk⟩, hlo, hhi⟩ := h
  have hne : c.currentSpeed ≠ 100 := by rw [hk]; exact lattice_ne_hundred k
  have hacc := update_accelCommand_not_detected c 0.1 obs hs hdet
  have hspd := update_currentSpeed c 0.1 obs
  rw [hd] at hacc
  rcases lt_or_gt_of_ne hne with hlt | hgt
  · have ha : (c.update 0.1 obs).accelCommand = 1.5 := by
      rw [hacc, freeCruiseCommand, if_pos hlt]; norm_num [MAX_ACCELERATION]
    have hv : (c.update 0.1 obs).currentSpeed = c.currentSpeed + 0.54 := by
      rw [hspd, ha, integrate_unclamped _ _ _ (by norm_num; linarith) (by norm_num; linarith)]
      norm_num
    refine ⟨⟨by rw [update_state]; exact hs, by rw [update_desiredSpeed]; exact hd,
      ⟨k + 3, ?_⟩, ?_, ?_⟩, Or.inl ha, Or.inl hv⟩
    · rw [hv, hk]; push_cast; norm_num; ring
    · rw [hv]; norm_num; linarith
    · rw [hv]; norm_num; linarith
  · have ha : (c.update 0.1 obs).accelCommand = -2.5 := by
      rw [hacc, freeCruiseCommand, if_neg (not_lt.mpr hgt.le), if_pos hgt]
      norm_num [MAX_DECELERATION]
    have hv : (c.update 0.1 obs).currentSpeed = c.currentSpeed - 0.9 := by
      rw [hspd, ha, integrate_unclamped _ _ _ (by norm_num; linarith) (by norm_num; linarith)]
      norm_num
      ring
    refine ⟨⟨by rw [update_state]; exact hs, by rw [update_desiredSpeed]; exact hd,
      ⟨k - 5, ?_⟩, ?_, ?_⟩, Or.inr ha, Or.inr hv⟩
    · rw [hv, hk]; push_cast; norm_num; ring
    · rw [hv]; norm_num; linarith
    · rw [hv]; norm_num; linarith

/-- The harness controller satisfies `CruiseInv`. -/
theorem cruiseInv_harnessStart : CruiseInv harnessStart := by
  rw [harnessStart_eq]
  refine ⟨by decide, rfl, ⟨0, by norm_num⟩, by norm_num, by norm_num⟩

/-- Free-cruise cycles keep `CruiseInv`. -/
theorem cruise_run (obss : List LeadVehicle) (c : AdaptiveCruiseControl) (h : CruiseInv c)
    (hdet : ∀ o ∈ obss, o.detected = false) :
    CruiseInv (run c (obss.map (Call.update 0.1))) := by
  induction obss generalizing c with
  | nil => exact h
  | cons o rest ih =>
    exact ih (c.update 0.1 o)
      (cruise_step c o h (hdet o (List.mem_cons_self o rest))).1
      (fun o' ho' => hdet o' (List.mem_cons_of_mem o ho'))

/-- A property kept by every call holds after every sequence of calls. -/
theorem run_preserves (P : AdaptiveCruiseControl → Prop)
    (step : ∀ (op : Call) (c : AdaptiveCruiseControl), P c → P (op.apply c))
    (ops : List Call) : ∀ c : AdaptiveCruiseControl, P c → P (run c ops) := by
  induction ops with
  | nil => intro c h; exact h
  | cons op ops ih => intro c h; exact ih (op.apply c) (step op c h)

/-! ## The claims -/

/-- C1. Acceleration-command clamp invariant: in every controller reachable from the freshly
constructed one by a finite sequence of initialize, setDesiredSpeed, start, stop and update
calls with arbitrary arguments, `-5.0 ≤ accelCommand ≤ 3.0`, and these two numbers are
`MAX_DECELERATION` and `MAX_ACCELERATION`. -/
theorem accelCommand_clamp_invariant (ops : List Call) :
    (-5.0 : ℚ) ≤ (run construct ops).accelCommand ∧ (run construct ops).accelCommand ≤ 3.0 ∧
      MAX_DECELERATION = -5.0 ∧ MAX_ACCELERATION = 3.0 := by
  have h := run_preserves (fun c => -5 ≤ c.accelCommand ∧ c.accelCommand ≤ 3)
    apply_accelCommand_bounds ops construct (by simp only [construct]; norm_num)
  refine ⟨?_, ?_, rfl, rfl⟩
  · norm_num; exact h.1
  · norm_num; exact h.2

/-- C2. Speed bounds after update: for every controller (whatever its prior speed), every
observation and every time step (zero, negative or large), the speed after `update` satisfies
`0 ≤ currentSpeed ≤ MAX_SPEED = 150`. -/
theorem update_currentSpeed_bounds (c : AdaptiveCruiseControl) (deltaTime : ℚ)
    (obs : LeadVehicle) :
    0 ≤ (c.update deltaTime obs).currentSpeed ∧
      (c.update deltaTime obs).currentSpeed ≤ MAX_SPEED ∧ MAX_SPEED = 150 := by
  have hM : MAX_SPEED = 150 := by norm_num [MAX_SPEED]
  rw [update_currentSpeed, hM]
  refine ⟨le_min (by norm_num) (mul_nonneg (by norm_num) (le_max_left _ _)), min_le_left _ _, rfl⟩

/-- C3. Too-close branch: for every controller not in Error and every observation with
`detected = true` and `distance < safeDistance`, where
`safeDistance = max(5.0, (currentSpeed / 3.6) * 1.5)` is taken from the speed at the start of
the cycle, `update` sets `accelCommand = MAX_DECELERATION = -5.0`, for any lead speed, desired
speed and time step. -/
theorem update_too_close (c : AdaptiveCruiseControl) (deltaTime : ℚ) (obs : LeadVehicle)
    (hstate : c.state ≠ ACCState.ERROR) (hdet : obs.detected = true)
    (hdist : obs.distance < max 5.0 ((c.currentSpeed / 3.6) * 1.5)) :
    (c.update deltaTime obs).accelCommand = MAX_DECELERATION ∧
      (c.update deltaTime obs).accelCommand = -5.0 := by
  have h : (c.update deltaTime obs).accelCommand = MAX_DECELERATION := by
    rw [update_accelCommand, calculateSafeDistance_eq, if_neg hstate, if_pos hdet, if_pos hdist]
  exact ⟨h, h⟩

/-- Scenario C of the specification: speed 80, observation `{20, 70, true}` gives full braking. -/
theorem update_too_close_witness :
    harnessStart.state ≠ ACCState.ERROR ∧ harnessStart.currentSpeed = 80 ∧
      (20 : ℚ) < max 5.0 ((harnessStart.currentSpeed / 3.6) * 1.5) ∧
      (harnessStart.update 0.1 ⟨20, 70, true⟩).accelCommand = -5.0 := by
  have hs : harnessStart.state ≠ ACCState.ERROR := by
    rw [harnessStart_eq]; decide
  have hv : harnessStart.currentSpeed = 80 := by
    rw [harnessStart_eq]
  have hd : (20 : ℚ) < max 5.0 ((harnessStart.currentSpeed / 3.6) * 1.5) := by
    rw [hv]; norm_num
  exact ⟨hs, hv, hd, (update_too_close harnessStart 0.1 ⟨20, 70, true⟩ hs rfl hd).2⟩

/-- C4. Speed-matching band: for every controller not in Error and every observation with
`detected = true` and `safeDistance ≤ distance < safeDistance + 10` (safe distance from the
start-of-cycle speed), `update` sets
`accelCommand = max(-5.0, min(3.0, (lead.speed - currentSpeed) / 3.6))` with the start-of-cycle
speed.  The lower bound is not strict, so `distance = safeDistance` is in this band. -/
theorem update_speed_matching_band (c : AdaptiveCruiseControl) (deltaTime : ℚ)
    (obs : LeadVehicle) (hstate : c.state ≠ ACCState.ERROR) (hdet : obs.detected = true)
    (hlo : max 5.0 ((c.currentSpeed / 3.6) * 1.5) ≤ obs.distance)
    (hhi : obs.distance < max 5.0 ((c.currentSpeed / 3.6) * 1.5) + 10) :
    (c.update deltaTime obs).accelCommand =
      max (-5.0) (min 3.0 ((obs.speed - c.currentSpeed) / 3.6)) := by
  rw [update_accelCommand, calculateSafeDistance_eq, if_neg hstate, if_pos hdet,
    if_neg (not_lt.mpr hlo), if_pos hhi, stdMax_eq_max, stdMin_eq_min]
  rfl

/-- The boundary of the band: at 80 km/h the safe distance is 100/3 m, and a lead vehicle
exactly there at 90 km/h gives the matching command 25/9 m/s², not full braking. -/
theorem update_speed_matching_band_witness :
    harnessStart.state ≠ ACCState.ERROR ∧
      max 5.0 ((harnessStart.currentSpeed / 3.6) * 1.5) = (100 / 3 : ℚ) ∧
      (harnessStart.update 0.1 ⟨100 / 3, 90, true⟩).accelCommand = 25 / 9 ∧
      (harnessStart.update 0.1 ⟨100 / 3, 90, true⟩).accelCommand ≠ MAX_DECELERATION := by
  have hs : harnessStart.state ≠ ACCState.ERROR := by
    rw [harnessStart_eq]; decide
  have hsd : max 5.0 ((harnessStart.currentSpeed / 3.6) * 1.5) = (100 / 3 : ℚ) := by
    rw [harnessStart_eq]; norm_num
  have hv : harnessStart.currentSpeed = 80 := by
    rw [harnessStart_eq]
  have h := update_speed_matching_band harnessStart 0.1 ⟨100 / 3, 90, true⟩ hs rfl
    (by rw [hsd]) (by rw [hsd]; norm_num)
  have hval : (harnessStart.update 0.1 ⟨100 / 3, 90, true⟩).accelCommand = 25 / 9 := by
    rw [h, hv]; norm_num
  refine ⟨hs, hsd, hval, ?_⟩
  rw [hval]; norm_num [MAX_DECELERATION]

/-- C5. Free-cruise branch and detection gating: for every controller not in Error and every
observation that has `detected = false` (whatever its other fields) or has `detected = true`
with `distance ≥ safeDistance + 10`, `update` sets `accelCommand` to 1.5 if
`currentSpeed < desiredSpeed`, to -2.5 if `currentSpeed > desiredSpeed` and to 0 if they are
equal (start-of-cycle speed); and with `detected = false` neither the command nor the
resulting speed depends on the distance and speed fields of the observation. -/
theorem update_free_cruise (c : AdaptiveCruiseControl) (deltaTime : ℚ)
    (hstate : c.state ≠ ACCState.ERROR) :
    (∀ obs : LeadVehicle,
        (obs.detected = false ∨
          (obs.detected = true ∧ obs.distance ≥ max 5.0 ((c.currentSpeed / 3.6) * 1.5) + 10)) →
        (c.update deltaTime obs).accelCommand =
          if c.currentSpeed < c.desiredSpeed then 1.5
          else if c.currentSpeed > c.desiredSpeed then -2.5
          else 0) ∧
      (∀ d₁ v₁ d₂ v₂ : ℚ,
        (c.update deltaTime ⟨d₁, v₁, false⟩).accelCommand =
            (c.update deltaTime ⟨d₂, v₂, false⟩).accelCommand ∧
          (c.update deltaTime ⟨d₁, v₁, false⟩).currentSpeed =
            (c.update deltaTime ⟨d₂, v₂, false⟩).currentSpeed) := by
  have hfree : freeCruiseCommand c.currentSpeed c.desiredSpeed =
      if c.currentSpeed < c.desiredSpeed then 1.5
      else if c.currentSpeed > c.desiredSpeed then -2.5
      else 0 := by
    unfold freeCruiseCommand MAX_ACCELERATION MAX_DECELERATION
    split_ifs <;> norm_num
  have hacc : ∀ d v : ℚ, (c.update deltaTime ⟨d, v, false⟩).accelCommand =
      freeCruiseCommand c.currentSpeed c.desiredSpeed := by
    intro d v
    rw [update_accelCommand, if_neg hstate, if_neg Bool.false_ne_true]
  constructor
  · intro obs h
    rw [update_accelCommand, calculateSafeDistance_eq, if_neg hstate, ← hfree]
    rcases h with h | ⟨hdet, hfar⟩
    · rw [if_neg (by rw [h]; decide)]
    · have hsafe : max (5.0 : ℚ) ((c.currentSpeed / 3.6) * 1.5) ≤ obs.distance := by
        linarith
      rw [if_pos hdet, if_neg (not_lt.mpr hsafe), if_neg (not_lt.mpr hfar)]
  · intro d₁ v₁ d₂ v₂
    have ha : (c.update deltaTime ⟨d₁, v₁, false⟩).accelCommand =
        (c.update deltaTime ⟨d₂, v₂, false⟩).accelCommand := by
      rw [hacc, hacc]
    refine ⟨ha, ?_⟩
    rw [update_currentSpeed, update_currentSpeed, ha]

/-- Scenarios B and D of the specification: from speed 80 with desired speed 100 the
observation `{50, 90, true}` gives 1.5, and with desired speed equal to the current speed the
observation `{0, 0, false}` gives 0. -/
theorem update_free_cruise_witness :
    harnessStart.state ≠ ACCState.ERROR ∧
      (harnessStart.update 0.1 ⟨50, 90, true⟩).accelCommand = 1.5 ∧
      (harnessStart.setDesiredSpeed 80).state ≠ ACCState.ERROR ∧
      ((harnessStart.setDesiredSpeed 80).update 0.1 ⟨0, 0, false⟩).accelCommand = 0 := by
  have hs : harnessStart.state ≠ ACCState.ERROR := by
    rw [harnessStart_eq]; decide
  have e : harnessStart.setDesiredSpeed 80 =
      { state := ACCState.ACTIVE, currentSpeed := 80, desiredSpeed := 80, accelCommand := 0,
        leadVehicle := { distance := 0, speed := 0, detected := false } } := by
    rw [harnessStart_eq]; norm_num [setDesiredSpeed, MAX_SPEED]
  have hs' : (harnessStart.setDesiredSpeed 80).state ≠ ACCState.ERROR := by
    rw [e]; decide
  have hB := (update_free_cruise harnessStart 0.1 hs).1 ⟨50, 90, true⟩
    (Or.inr ⟨rfl, by rw [harnessStart_eq]; norm_num⟩)
  have hD := (update_free_cruise (harnessStart.setDesiredSpeed 80) 0.1 hs').1 ⟨0, 0, false⟩
    (Or.inl rfl)
  refine ⟨hs, ?_, hs', ?_⟩
  · rw [hB, harnessStart_eq]; norm_num
  · rw [hD, e]; norm_num

/-- C6. Cycle orchestration and integrator: `update(dt, obs)` replaces the stored observation
by `obs`, leaves `state` and `desiredSpeed` unchanged, stores the command `a` that the policy
of the specification computes from the old state, the old desired speed, `obs` and the
start-of-cycle speed, and stores the speed
`min(150, 3.6 * max(0, currentSpeed / 3.6 + a * dt))` taken from the old speed and `a`. -/
theorem update_cycle (c : AdaptiveCruiseControl) (deltaTime : ℚ) (obs : LeadVehicle) :
    (c.update deltaTime obs).leadVehicle = obs ∧
      (c.update deltaTime obs).state = c.state ∧
      (c.update deltaTime obs).desiredSpeed = c.desiredSpeed ∧
      (c.update deltaTime obs).accelCommand =
        policyCommand c.state c.currentSpeed c.desiredSpeed obs ∧
      (c.update deltaTime obs).currentSpeed =
        min 150 (3.6 * max 0 (c.currentSpeed / 3.6 +
          policyCommand c.state c.currentSpeed c.desiredSpeed obs * deltaTime)) := by
  have ha : (c.update deltaTime obs).accelCommand =
      policyCommand c.state c.currentSpeed c.desiredSpeed obs := by
    rw [update_accelCommand, calculateSafeDistance_eq]
    simp only [policyCommand, clamp, freeCruiseCommand, stdMax_eq_max, stdMin_eq_min,
      MIN_FOLLOW_DISTANCE, TIME_GAP]
    by_cases hE : c.state = ACCState.ERROR
    · rw [if_pos hE, if_pos hE]
    · rw [if_neg hE, if_neg hE]
      cases obs.detected
      · simp only [Bool.false_eq_true, false_and, if_false]
        norm_num
      · simp only [true_and, if_true]
        norm_num
  refine ⟨update_leadVehicle c deltaTime obs, update_state c deltaTime obs,
    update_desiredSpeed c deltaTime obs, ha, ?_⟩
  rw [update_currentSpeed, ha]

/-- C7. Error latch: for every controller and every `v` with `v ≤ 0` or `v > 150`, after
`setDesiredSpeed(v)` the state is Error; after any following finite sequence of update, start,
stop and setDesiredSpeed calls with arbitrary arguments (no "initialize") the state is still
Error; and every update in that sequence leaves `accelCommand = 0`, whatever its observation
and time step. -/
theorem error_latch (c : AdaptiveCruiseControl) (v : ℚ) (hv : v ≤ 0 ∨ v > 150) :
    (c.setDesiredSpeed v).state = ACCState.ERROR ∧
      ∀ ops : List Call, (∀ op ∈ ops, op.isInitialise = false) →
        (run (c.setDesiredSpeed v) ops).state = ACCState.ERROR ∧
          ∀ (earlier later : List Call) (dt : ℚ) (obs : LeadVehicle),
            ops = earlier ++ Call.update dt obs :: later →
            (run (c.setDesiredSpeed v) (earlier ++ [Call.update dt obs])).accelCommand = 0 := by
  have hE : (c.setDesiredSpeed v).state = ACCState.ERROR := by
    have hnot : ¬(v > 0 ∧ v ≤ MAX_SPEED) := by
      have hM : MAX_SPEED = 150 := by norm_num [MAX_SPEED]
      rw [hM]
      rintro ⟨h1, h2⟩
      rcases hv with h | h
      · exact absurd h1 (not_lt.mpr h)
      · exact absurd h (not_lt.mpr h2)
    simp only [setDesiredSpeed]
    rw [if_neg hnot]
  refine ⟨hE, ?_⟩
  intro ops hops
  refine ⟨run_state_of_error ops _ hops hE, ?_⟩
  intro earlier later dt obs hsplit
  have hearlier : ∀ op ∈ earlier, op.isInitialise = false := by
    intro op hop
    apply hops op
    rw [hsplit]
    exact List.mem_append_left _ hop
  rw [run_append]
  exact update_accelCommand_of_error _ dt obs (run_state_of_error earlier _ hearlier hE)

/-- Scenario E of the specification: `setDesiredSpeed(-10.0)` on the harness controller, then
an update that would otherwise brake fully, a restart attempt, a valid set speed and an update
that would otherwise accelerate. -/
theorem error_latch_witness :
    ((-10.0 : ℚ) ≤ 0 ∨ (-10.0 : ℚ) > 150) ∧
      (harnessStart.setDesiredSpeed (-10.0)).state = ACCState.ERROR ∧
      (run (harnessStart.setDesiredSpeed (-10.0))
        [Call.update 0.1 ⟨20, 70, true⟩, Call.stop, Call.start, Call.setDesiredSpeed 100,
          Call.update 0.1 ⟨0, 0, false⟩]).state = ACCState.ERROR ∧
      (run (harnessStart.setDesiredSpeed (-10.0))
        ([Call.update 0.1 ⟨20, 70, true⟩] ++ [Call.update 0.1 ⟨20, 70, true⟩])).accelCommand
          = 0 ∧
      (run (harnessStart.setDesiredSpeed (-10.0))
        ([Call.update 0.1 ⟨20, 70, true⟩, Call.stop, Call.start, Call.setDesiredSpeed 100] ++
          [Call.update 0.1 ⟨0, 0, false⟩])).accelCommand = 0 := by
  have hv : ((-10.0 : ℚ) ≤ 0 ∨ (-10.0 : ℚ) > 150) := Or.inl (by norm_num)
  have h := error_latch harnessStart (-10.0) hv
  have hops : ∀ op ∈ [Call.update 0.1 ⟨20, 70, true⟩, Call.stop, Call.start,
      Call.setDesiredSpeed 100, Call.update 0.1 ⟨0, 0, false⟩], op.isInitialise = false := by
    intro op hop
    simp only [List.mem_cons, List.mem_singleton, List.not_mem_nil, or_false] at hop
    rcases hop with h | h | h | h | h <;> rw [h] <;> rfl
  have hops₂ : ∀ op ∈ [Call.update 0.1 ⟨20, 70, true⟩, Call.update 0.1 ⟨20, 70, true⟩],
      op.isInitialise = false := by
    intro op hop
    simp only [List.mem_cons, List.mem_singleton, List.not_mem_nil, or_false] at hop
    rcases hop with h | h <;> rw [h] <;> rfl
  exact ⟨hv, h.1, (h.2 _ hops).1,
    (h.2 _ hops₂).2 [Call.update 0.1 ⟨20, 70, true⟩] [] 0.1 ⟨20, 70, true⟩ rfl,
    (h.2 _ hops).2 [Call.update 0.1 ⟨20, 70, true⟩, Call.stop, Call.start,
      Call.setDesiredSpeed 100] [] 0.1 ⟨0, 0, false⟩ rfl⟩

/-- C8. setDesiredSpeed accepts or rejects: for every controller (in any of the four states)
and every `v`, if `0 < v ≤ 150` then `setDesiredSpeed(v)` sets `desiredSpeed = v` and leaves
`state`, `currentSpeed`, `accelCommand` and the stored observation unchanged; otherwise
(`v ≤ 0` or `v > 150`) it sets `state = Error` and leaves `desiredSpeed`, `currentSpeed`,
`accelCommand` and the stored observation unchanged. -/
theorem setDesiredSpeed_accepts_or_rejects (c : AdaptiveCruiseControl) (v : ℚ) :
    (0 < v ∧ v ≤ 150 →
        (c.setDesiredSpeed v).desiredSpeed = v ∧
        (c.setDesiredSpeed v).state = c.state ∧
        (c.setDesiredSpeed v).currentSpeed = c.currentSpeed ∧
        (c.setDesiredSpeed v).accelCommand = c.accelCommand ∧
        (c.setDesiredSpeed v).leadVehicle = c.leadVehicle) ∧
      (v ≤ 0 ∨ v > 150 →
        (c.setDesiredSpeed v).state = ACCState.ERROR ∧
        (c.setDesiredSpeed v).desiredSpeed = c.desiredSpeed ∧
        (c.setDesiredSpeed v).currentSpeed = c.currentSpeed ∧
        (c.setDesiredSpeed v).accelCommand = c.accelCommand ∧
        (c.setDesiredSpeed v).leadVehicle = c.leadVehicle) := by
  have hM : MAX_SPEED = 150 := by norm_num [MAX_SPEED]
  constructor
  · intro h
    have hok : v > 0 ∧ v ≤ MAX_SPEED := by rw [hM]; exact h
    simp only [setDesiredSpeed]
    rw [if_pos hok]
    exact ⟨rfl, rfl, rfl, rfl, rfl⟩
  · intro h
    have hnot : ¬(v > 0 ∧ v ≤ MAX_SPEED) := by
      rw [hM]
      rintro ⟨h1, h2⟩
      rcases h with h | h
      · exact absurd h1 (not_lt.mpr h)
      · exact absurd h (not_lt.mpr h2)
    simp only [setDesiredSpeed]
    rw [if_neg hnot]
    exact ⟨rfl, rfl, rfl, rfl, rfl⟩

/-- The harness call `setDesiredSpeed(100.0)` is accepted and `setDesiredSpeed(150.5)` is
rejected, on the harness controller. -/
theorem setDesiredSpeed_accepts_or_rejects_witness :
    ((harnessStart.setDesiredSpeed 100).desiredSpeed = 100 ∧
        (harnessStart.setDesiredSpeed 100).state = harnessStart.state) ∧
      ((harnessStart.setDesiredSpeed 150.5).state = ACCState.ERROR ∧
        (harnessStart.setDesiredSpeed 150.5).desiredSpeed = harnessStart.desiredSpeed) := by
  have ha := (setDesiredSpeed_accepts_or_rejects harnessStart 100).1 (by norm_num)
  have hr := (setDesiredSpeed_accepts_or_rejects harnessStart 150.5).2 (Or.inr (by norm_num))
  exact ⟨⟨ha.1, ha.2.1⟩, ⟨hr.1, hr.2.1⟩⟩

/-- C9. start() law: for every controller, `start()` results in `state = Active` if and only
if the prior state is Standby or already Active; from Standby the state becomes Active and
from Off, Active or Error the state is unchanged; in every case `currentSpeed`,
`desiredSpeed`, `accelCommand` and the stored observation are unchanged. -/
theorem start_law (c : AdaptiveCruiseControl) :
    (c.start.state = ACCState.ACTIVE ↔
        (c.state = ACCState.STANDBY ∨ c.state = ACCState.ACTIVE)) ∧
      (c.state = ACCState.STANDBY → c.start.state = ACCState.ACTIVE) ∧
      (c.state = ACCState.OFF ∨ c.state = ACCState.ACTIVE ∨ c.state = ACCState.ERROR →
        c.start.state = c.state) ∧
      c.start.currentSpeed = c.currentSpeed ∧
      c.start.desiredSpeed = c.desiredSpeed ∧
      c.start.accelCommand = c.accelCommand ∧
      c.start.leadVehicle = c.leadVehicle := by
  obtain ⟨st, cs, ds, a, lv⟩ := c
  cases st <;> simp [start]

/-- The harness: `start()` after "initialize" reaches Active, while `start()` on the freshly
constructed controller stays Off. -/
theorem start_law_witness :
    (construct.initialise 80).state = ACCState.STANDBY ∧
      (construct.initialise 80).start.state = ACCState.ACTIVE ∧
      construct.state = ACCState.OFF ∧ construct.start.state = construct.state := by
  have hS : (construct.initialise 80).state = ACCState.STANDBY := rfl
  have hO : construct.state = ACCState.OFF := rfl
  exact ⟨hS, (start_law (construct.initialise 80)).2.1 hS, hO,
    (start_law construct).2.2.1 (Or.inl hO)⟩

/-- C10. stop() law: for every controller, if the prior state is Active then `stop()` sets
`state = Standby` and `accelCommand = 0` and leaves `currentSpeed`, `desiredSpeed` and the
stored observation unchanged; if the prior state is Off, Standby or Error then `stop()` leaves
the whole controller unchanged, `accelCommand` included. -/
theorem stop_law (c : AdaptiveCruiseControl) :
    (c.state = ACCState.ACTIVE →
        c.stop.state = ACCState.STANDBY ∧
        c.stop.accelCommand = 0 ∧
        c.stop.currentSpeed = c.currentSpeed ∧
        c.stop.desiredSpeed = c.desiredSpeed ∧
        c.stop.leadVehicle = c.leadVehicle) ∧
      (c.state = ACCState.OFF ∨ c.state = ACCState.STANDBY ∨ c.state = ACCState.ERROR →
        c.stop = c) := by
  obtain ⟨st, cs, ds, a, lv⟩ := c
  have z : (0.0 : ℚ) = 0 := by norm_num
  cases st <;> simp [stop, z]

/-- After one harness cycle of full braking the controller is Active with command -5;
`stop()` puts it in Standby with command 0, and a second `stop()` changes nothing. -/
theorem stop_law_witness :
    (harnessStart.update 0.1 ⟨20, 70, true⟩).state = ACCState.ACTIVE ∧
      (harnessStart.update 0.1 ⟨20, 70, true⟩).accelCommand = -5 ∧
      (harnessStart.update 0.1 ⟨20, 70, true⟩).stop.state = ACCState.STANDBY ∧
      (harnessStart.update 0.1 ⟨20, 70, true⟩).stop.accelCommand = 0 ∧
      (harnessStart.update 0.1 ⟨20, 70, true⟩).stop.stop =
        (harnessStart.update 0.1 ⟨20, 70, true⟩).stop := by
  have hA : (harnessStart.update 0.1 ⟨20, 70, true⟩).state = ACCState.ACTIVE := by
    rw [update_state, harnessStart_eq]
  have hc : (harnessStart.update 0.1 ⟨20, 70, true⟩).accelCommand = -5 := by
    rw [update_accelCommand, calculateSafeDistance_eq, harnessStart_eq,
      if_neg (by decide), if_pos rfl]
    norm_num [MAX_DECELERATION]
  have h := (stop_law (harnessStart.update 0.1 ⟨20, 70, true⟩)).1 hA
  exact ⟨hA, hc, h.1, h.2.1,
    (stop_law (harnessStart.update 0.1 ⟨20, 70, true⟩).stop).2 (Or.inr (Or.inl h.1))⟩

/-- C11. initialize(v0): the freshly constructed controller has state Off, both speeds 0,
command 0 and observation `{0, 0, false}`, and for every `v0` the call `initialize(v0)` on it
yields `state = Standby`, `currentSpeed = desiredSpeed = v0` and `accelCommand = 0`, with the
stored observation unchanged. -/
theorem initialise_fresh (v0 : ℚ) :
    (construct.state = ACCState.OFF ∧ construct.currentSpeed = 0 ∧
        construct.desiredSpeed = 0 ∧ construct.accelCommand = 0 ∧
        construct.leadVehicle = { distance := 0, speed := 0, detected := false }) ∧
      (construct.initialise v0).state = ACCState.STANDBY ∧
      (construct.initialise v0).currentSpeed = v0 ∧
      (construct.initialise v0).desiredSpeed = v0 ∧
      (construct.initialise v0).accelCommand = 0 ∧
      (construct.initialise v0).leadVehicle = construct.leadVehicle := by
  have z : (0.0 : ℚ) = 0 := by norm_num
  refine ⟨⟨rfl, ?_, ?_, ?_, ?_⟩, rfl, rfl, rfl, ?_, rfl⟩
  · simp only [construct, z]
  · simp only [construct, z]
  · simp only [construct, z]
  · simp only [construct, z]
  · simp only [initialise, z]

/-- C12. Start-up sequence (Scenario A generalised): for every `v0` and every `v` with
`0 < v ≤ 150`, running `initialize(v0)`, `setDesiredSpeed(v)`, `start()` on a freshly
constructed controller yields `state = Active`, `currentSpeed = v0`, `desiredSpeed = v` and
`accelCommand = 0`. -/
theorem startup_sequence (v0 v : ℚ) (hpos : 0 < v) (hmax : v ≤ 150) :
    (((construct.initialise v0).setDesiredSpeed v).start).state = ACCState.ACTIVE ∧
      (((construct.initialise v0).setDesiredSpeed v).start).currentSpeed = v0 ∧
      (((construct.initialise v0).setDesiredSpeed v).start).desiredSpeed = v ∧
      (((construct.initialise v0).setDesiredSpeed v).start).accelCommand = 0 := by
  have hM : MAX_SPEED = 150 := by norm_num [MAX_SPEED]
  have hok : v > 0 ∧ v ≤ MAX_SPEED := by rw [hM]; exact ⟨hpos, hmax⟩
  have z : (0.0 : ℚ) = 0 := by norm_num
  have e : (construct.initialise v0).setDesiredSpeed v =
      { state := ACCState.STANDBY, currentSpeed := v0, desiredSpeed := v, accelCommand := 0,
        leadVehicle := construct.leadVehicle } := by
    simp only [setDesiredSpeed]
    rw [if_pos hok]
    simp only [initialise, z]
  rw [e]
  simp only [start, if_true, and_self]

/-- Scenario A of the specification, the calls of `main`: `initialize(80.0)`,
`setDesiredSpeed(100.0)`, `start()`. -/
theorem startup_sequence_witness :
    (0 : ℚ) < 100.0 ∧ (100.0 : ℚ) ≤ 150 ∧ harnessStart.state = ACCState.ACTIVE ∧
      harnessStart.currentSpeed = 80.0 ∧ harnessStart.desiredSpeed = 100.0 ∧
      harnessStart.accelCommand = 0 :=
  ⟨by norm_num, by norm_num, startup_sequence 80.0 100.0 (by norm_num) (by norm_num)⟩

/-- Zero-time-step idempotence of the exact-arithmetic model: over the rationals, for every
controller whose speed satisfies `0 ≤ currentSpeed ≤ 150` and every observation,
`update(0, observation)` leaves `currentSpeed` unchanged, and so does calling it twice in a
row; the second call leaves `accelCommand` and every other field as they were after the first
call.  This rests on `(v / 3.6) * 3.6 = v`, which binary64 does not satisfy; the program's
behaviour is the subject of the binary64 section at the end of the file. -/
theorem update_zero_idempotent (c : AdaptiveCruiseControl) (obs : LeadVehicle)
    (h0 : 0 ≤ c.currentSpeed) (h1 : c.currentSpeed ≤ 150) :
    (c.update 0 obs).currentSpeed = c.currentSpeed ∧
      ((c.update 0 obs).update 0 obs).currentSpeed = c.currentSpeed ∧
      (c.update 0 obs).update 0 obs = c.update 0 obs := by
  have hv : (c.update 0 obs).currentSpeed = c.currentSpeed :=
    update_zero_currentSpeed c obs h0 h1
  have hv₂ : ((c.update 0 obs).update 0 obs).currentSpeed = (c.update 0 obs).currentSpeed :=
    update_zero_currentSpeed (c.update 0 obs) obs (by rw [hv]; exact h0) (by rw [hv]; exact h1)
  refine ⟨hv, hv₂.trans hv, ?_⟩
  apply eq_of_fields
  · rw [update_state]
  · exact hv₂
  · rw [update_desiredSpeed]
  · rw [update_accelCommand (c.update 0 obs), update_accelCommand c, calculateSafeDistance_eq,
      calculateSafeDistance_eq, hv, update_state, update_desiredSpeed]
  · rw [update_leadVehicle, update_leadVehicle]

/-- In the exact-arithmetic model, on the harness controller (speed 80, command 0), a
zero-step cycle with the observation `{20, 70, true}` keeps the speed at 80 and a second such
cycle changes nothing. -/
theorem update_zero_idempotent_witness :
    (0 : ℚ) ≤ harnessStart.currentSpeed ∧ harnessStart.currentSpeed ≤ 150 ∧
      (harnessStart.update 0 ⟨20, 70, true⟩).currentSpeed = 80 ∧
      ((harnessStart.update 0 ⟨20, 70, true⟩).update 0 ⟨20, 70, true⟩).currentSpeed = 80 ∧
      (harnessStart.update 0 ⟨20, 70, true⟩).update 0 ⟨20, 70, true⟩ =
        harnessStart.update 0 ⟨20, 70, true⟩ := by
  have hv : harnessStart.currentSpeed = 80 := by rw [harnessStart_eq]
  have h0 : (0 : ℚ) ≤ harnessStart.currentSpeed := by rw [hv]; norm_num
  have h1 : harnessStart.currentSpeed ≤ 150 := by rw [hv]; norm_num
  have h := update_zero_idempotent harnessStart ⟨20, 70, true⟩ h0 h1
  exact ⟨h0, h1, h.1.trans hv, h.2.1.trans hv, h.2.2⟩

/-- C14. Safe-distance floor: `calculateSafeDistance` returns
`max(5.0, (currentSpeed / 3.6) * 1.5)`, and for every `currentSpeed` in `[0, 150]` the result
is at least `MIN_FOLLOW_DISTANCE = 5.0`.  (The proof does not need the range: the floor is
the left argument of the maximum.) -/
theorem calculateSafeDistance_floor (c : AdaptiveCruiseControl) (_h0 : 0 ≤ c.currentSpeed)
    (_h1 : c.currentSpeed ≤ MAX_SPEED) :
    c.calculateSafeDistance = max 5.0 ((c.currentSpeed / 3.6) * 1.5) ∧
      c.calculateSafeDistance ≥ MIN_FOLLOW_DISTANCE ∧ MIN_FOLLOW_DISTANCE = 5.0 := by
  refine ⟨calculateSafeDistance_eq c, ?_, rfl⟩
  rw [calculateSafeDistance_eq]
  exact le_max_left _ _

/-- At a standstill the floor of 5 m is returned, and at the speed ceiling of 150 km/h the
time-gap distance of 62.5 m. -/
theorem calculateSafeDistance_floor_witness :
    construct.calculateSafeDistance = 5 ∧
      ({ construct with currentSpeed := 150 } : AdaptiveCruiseControl).calculateSafeDistance
        = 62.5 ∧
      ({ construct with currentSpeed := 150 } : AdaptiveCruiseControl).calculateSafeDistance
        ≥ MIN_FOLLOW_DISTANCE := by
  have hc : construct.currentSpeed = 0 := by simp only [construct]; norm_num
  have hM : MAX_SPEED = 150 := by norm_num [MAX_SPEED]
  have h := calculateSafeDistance_floor construct (by rw [hc]) (by rw [hc, hM]; norm_num)
  have h' := calculateSafeDistance_floor { construct with currentSpeed := 150 }
    (by norm_num) (by rw [hM])
  refine ⟨?_, ?_, h'.2.1⟩
  · rw [h.1, hc]; norm_num
  · rw [h'.1]; norm_num

/-- C15. Current-speed data-model invariant, evaluated where it fails: the claim is that
`0 ≤ currentSpeed ≤ MAX_SPEED = 150` in every controller reachable from the freshly
constructed one.  The single call `initialize(200.0)` reaches a controller with
`currentSpeed = 200`, above `MAX_SPEED`, and `initialize(-10.0)` one with `currentSpeed = -10`,
below zero: "initialize" stores its argument unchecked, whereas `updateSpeed` clamps the same
field to `[0, MAX_SPEED]` (the next `update` brings both back into the range). -/
theorem initialise_currentSpeed_unchecked :
    (run construct [Call.initialise 200.0]).currentSpeed = 200 ∧
      ¬ (run construct [Call.initialise 200.0]).currentSpeed ≤ MAX_SPEED ∧
      (run construct [Call.initialise (-10.0)]).currentSpeed = -10 ∧
      ¬ 0 ≤ (run construct [Call.initialise (-10.0)]).currentSpeed ∧
      (run construct [Call.initialise 200.0, Call.update 0.1 ⟨0, 0, false⟩]).currentSpeed
        = 150 ∧
      (run construct [Call.initialise (-10.0), Call.update 0.1 ⟨0, 0, false⟩]).currentSpeed
        = 0 := by
  have e₁ : (run construct [Call.initialise 200.0]).currentSpeed = 200 := by
    simp only [run, Call.apply, initialise]; norm_num
  have e₂ : (run construct [Call.initialise (-10.0)]).currentSpeed = -10 := by
    simp only [run, Call.apply, initialise]; norm_num
  refine ⟨e₁, ?_, e₂, ?_, ?_, ?_⟩
  · rw [e₁]; norm_num [MAX_SPEED]
  · rw [e₂]; norm_num
  · simp only [run, Call.apply]
    rw [update_currentSpeed, update_accelCommand]
    norm_num [initialise, construct, freeCruiseCommand, MAX_ACCELERATION, MAX_DECELERATION]
  · simp only [run, Call.apply]
    rw [update_currentSpeed, update_accelCommand]
    norm_num [initialise, construct, freeCruiseCommand, MAX_ACCELERATION, MAX_DECELERATION]

/-- C16. Desired-speed data-model invariant, evaluated where it fails: the claim is that
`0 < desiredSpeed ≤ MAX_SPEED = 150` once the desired speed has been set by "initialize" or by
an accepted `setDesiredSpeed`.  The single call `initialize(200.0)` sets `desiredSpeed = 200`
and `initialize(0.0)` sets `desiredSpeed = 0`, and the state is Standby, not Error; the same
values are refused by `setDesiredSpeed`, which leaves the desired speed alone and goes to
Error. -/
theorem initialise_desiredSpeed_unchecked :
    (run construct [Call.initialise 200.0]).desiredSpeed = 200 ∧
      ¬ (run construct [Call.initialise 200.0]).desiredSpeed ≤ MAX_SPEED ∧
      (run construct [Call.initialise 200.0]).state = ACCState.STANDBY ∧
      (run construct [Call.initialise 0.0]).desiredSpeed = 0 ∧
      ¬ 0 < (run construct [Call.initialise 0.0]).desiredSpeed ∧
      (run construct [Call.initialise 80.0, Call.setDesiredSpeed 200.0]).desiredSpeed = 80 ∧
      (run construct [Call.initialise 80.0, Call.setDesiredSpeed 200.0]).state
        = ACCState.ERROR ∧
      (run construct [Call.initialise 80.0, Call.setDesiredSpeed 0.0]).state
        = ACCState.ERROR := by
  have e₁ : (run construct [Call.initialise 200.0]).desiredSpeed = 200 := by
    simp only [run, Call.apply, initialise]; norm_num
  have e₂ : (run construct [Call.initialise 0.0]).desiredSpeed = 0 := by
    simp only [run, Call.apply, initialise]; norm_num
  refine ⟨e₁, ?_, rfl, e₂, ?_, ?_, ?_, ?_⟩
  · rw [e₁]; norm_num [MAX_SPEED]
  · rw [e₂]; norm_num
  · norm_num [run, Call.apply, initialise, setDesiredSpeed, MAX_SPEED]
  · norm_num [run, Call.apply, initialise, setDesiredSpeed, MAX_SPEED]
  · norm_num [run, Call.apply, initialise, setDesiredSpeed, MAX_SPEED]

/-- C17, as stated, fails: the claim is that no public operation leaves Error.  The harness
controller after `setDesiredSpeed(-10.0)` is in Error, and `initialize(80.0)` on it yields
Standby. -/
theorem initialise_leaves_error :
    (harnessStart.setDesiredSpeed (-10.0)).state = ACCState.ERROR ∧
      ((Call.initialise 80.0).apply (harnessStart.setDesiredSpeed (-10.0))).state
        = ACCState.STANDBY ∧
      ((Call.initialise 80.0).apply (harnessStart.setDesiredSpeed (-10.0))).state
        ≠ ACCState.ERROR := by
  have hE : (harnessStart.setDesiredSpeed (-10.0)).state = ACCState.ERROR := by
    norm_num [setDesiredSpeed, MAX_SPEED]
  have hS : ((Call.initialise 80.0).apply (harnessStart.setDesiredSpeed (-10.0))).state
      = ACCState.STANDBY := rfl
  refine ⟨hE, hS, ?_⟩
  rw [hS]; decide

/-- C17, amended: for every controller with `state = Error`, the operations
`setDesiredSpeed`, `start`, `stop` and `update` with arbitrary arguments leave the state
Error, and `initialize(v0)` sets the state to Standby for every `v0`. -/
theorem error_left_only_by_initialise (c : AdaptiveCruiseControl)
    (hE : c.state = ACCState.ERROR) :
    (∀ v : ℚ, (c.setDesiredSpeed v).state = ACCState.ERROR) ∧
      c.start.state = ACCState.ERROR ∧
      c.stop.state = ACCState.ERROR ∧
      (∀ (deltaTime : ℚ) (obs : LeadVehicle), (c.update deltaTime obs).state = ACCState.ERROR) ∧
      (∀ v0 : ℚ, (c.initialise v0).state = ACCState.STANDBY) :=
  ⟨fun v => apply_state_of_error (Call.setDesiredSpeed v) c rfl hE,
    apply_state_of_error Call.start c rfl hE,
    apply_state_of_error Call.stop c rfl hE,
    fun dt obs => apply_state_of_error (Call.update dt obs) c rfl hE,
    fun _ => rfl⟩

/-- The harness controller after `setDesiredSpeed(-10.0)`: an accepted set speed, a start, a
stop and an update keep it in Error. -/
theorem error_left_only_by_initialise_witness :
    (harnessStart.setDesiredSpeed (-10.0)).state = ACCState.ERROR ∧
      ((harnessStart.setDesiredSpeed (-10.0)).setDesiredSpeed 100).state = ACCState.ERROR ∧
      (harnessStart.setDesiredSpeed (-10.0)).start.state = ACCState.ERROR ∧
      (harnessStart.setDesiredSpeed (-10.0)).stop.state = ACCState.ERROR ∧
      ((harnessStart.setDesiredSpeed (-10.0)).update 0.1 ⟨20, 70, true⟩).state
        = ACCState.ERROR := by
  have hE : (harnessStart.setDesiredSpeed (-10.0)).state = ACCState.ERROR := by
    norm_num [setDesiredSpeed, MAX_SPEED]
  have h := error_left_only_by_initialise (harnessStart.setDesiredSpeed (-10.0)) hE
  exact ⟨hE, h.1 100, h.2.1, h.2.2.1, h.2.2.2.1 0.1 ⟨20, 70, true⟩⟩

/-- C18. The control law ignores whether the controller is engaged: for any two controllers
that agree on `currentSpeed`, `desiredSpeed`, `accelCommand` and the stored observation and
whose states are both among Off, Standby and Active, `update` with the same time step and
observation produces the same `accelCommand`, `currentSpeed` and stored observation. -/
theorem update_ignores_engagement (c₁ c₂ : AdaptiveCruiseControl) (deltaTime : ℚ)
    (obs : LeadVehicle) (hv : c₁.currentSpeed = c₂.currentSpeed)
    (hd : c₁.desiredSpeed = c₂.desiredSpeed) (_ha : c₁.accelCommand = c₂.accelCommand)
    (_hl : c₁.leadVehicle = c₂.leadVehicle)
    (h₁ : c₁.state = ACCState.OFF ∨ c₁.state = ACCState.STANDBY ∨ c₁.state = ACCState.ACTIVE)
    (h₂ : c₂.state = ACCState.OFF ∨ c₂.state = ACCState.STANDBY ∨ c₂.state = ACCState.ACTIVE) :
    (c₁.update deltaTime obs).accelCommand = (c₂.update deltaTime obs).accelCommand ∧
      (c₁.update deltaTime obs).currentSpeed = (c₂.update deltaTime obs).currentSpeed ∧
      (c₁.update deltaTime obs).leadVehicle = (c₂.update deltaTime obs).leadVehicle := by
  have n₁ : c₁.state ≠ ACCState.ERROR := by
    rcases h₁ with h | h | h <;> rw [h] <;> decide
  have n₂ : c₂.state ≠ ACCState.ERROR := by
    rcases h₂ with h | h | h <;> rw [h] <;> decide
  have hacc : (c₁.update deltaTime obs).accelCommand = (c₂.update deltaTime obs).accelCommand := by
    rw [update_accelCommand c₁, update_accelCommand c₂, calculateSafeDistance_eq,
      calculateSafeDistance_eq, if_neg n₁, if_neg n₂, hv, hd]
  refine ⟨hacc, ?_, ?_⟩
  · rw [update_currentSpeed c₁, update_currentSpeed c₂, hacc, hv]
  · rw [update_leadVehicle, update_leadVehicle]

/-- A controller in Standby after `stop()` and the Active harness controller both answer the
observation `{50, 90, true}` with the command 1.5 and move from 80 to 80.54 km/h; and the
freshly constructed controller, still Off, answers `{10, 50, true}` like the Active controller
initialised at speed 0. -/
theorem update_ignores_engagement_witness :
    harnessStart.state = ACCState.ACTIVE ∧ harnessStart.stop.state = ACCState.STANDBY ∧
      (harnessStart.stop.update 0.1 ⟨50, 90, true⟩).accelCommand = 1.5 ∧
      (harnessStart.stop.update 0.1 ⟨50, 90, true⟩).currentSpeed = 80.54 ∧
      (harnessStart.update 0.1 ⟨50, 90, true⟩).accelCommand = 1.5 ∧
      (harnessStart.update 0.1 ⟨50, 90, true⟩).currentSpeed = 80.54 ∧
      construct.state = ACCState.OFF ∧
      (construct.update 0.1 ⟨10, 50, true⟩).accelCommand =
        ((construct.initialise 0).start.update 0.1 ⟨10, 50, true⟩).accelCommand ∧
      (construct.update 0.1 ⟨10, 50, true⟩).currentSpeed =
        ((construct.initialise 0).start.update 0.1 ⟨10, 50, true⟩).currentSpeed := by
  have z : (0.0 : ℚ) = 0 := by norm_num
  have hoff := update_ignores_engagement construct (construct.initialise 0).start 0.1
    ⟨10, 50, true⟩ (by simp only [construct, initialise, start, if_true, z])
    (by simp only [construct, initialise, start, if_true, z])
    (by simp only [construct, initialise, start, if_true, z])
    (by simp only [construct, initialise, start, if_true])
    (Or.inl rfl) (Or.inr (Or.inr rfl))
  have hA : harnessStart.state = ACCState.ACTIVE := by rw [harnessStart_eq]
  have hstop : harnessStart.stop =
      { state := ACCState.STANDBY, currentSpeed := 80, desiredSpeed := 100, accelCommand := 0,
        leadVehicle := { distance := 0, speed := 0, detected := false } } := by
    rw [harnessStart_eq]; norm_num [stop]
  have hS : harnessStart.stop.state = ACCState.STANDBY := by rw [hstop]
  have h := update_ignores_engagement harnessStart.stop harnessStart 0.1 ⟨50, 90, true⟩
    (by rw [hstop, harnessStart_eq]) (by rw [hstop, harnessStart_eq])
    (by rw [hstop, harnessStart_eq]) (by rw [hstop, harnessStart_eq])
    (Or.inr (Or.inl hS)) (Or.inr (Or.inr hA))
  have hacc : (harnessStart.update 0.1 ⟨50, 90, true⟩).accelCommand = 1.5 := by
    rw [update_accelCommand, calculateSafeDistance_eq, harnessStart_eq,
      if_neg (by decide), if_pos rfl]
    norm_num [freeCruiseCommand, MAX_ACCELERATION]
  have hspd : (harnessStart.update 0.1 ⟨50, 90, true⟩).currentSpeed = 80.54 := by
    rw [update_currentSpeed, hacc, harnessStart_eq]
    norm_num
  exact ⟨hA, hS, h.1.trans hacc, h.2.1.trans hspd, hacc, hspd, rfl, hoff.1, hoff.2.1⟩

/-- C19. The speed-matching band can drive the vehicle above the set speed: there are a
controller not in Error with `currentSpeed = desiredSpeed` in `(0, 150)` and an observation
with `detected = true` and `safeDistance ≤ distance < safeDistance + 10` such that
`update(0.1, observation)` yields `accelCommand > 0` and a speed strictly above the desired
speed; the example is `currentSpeed = desiredSpeed = 100` with observation `{45, 120, true}`,
giving `accelCommand = 3.0` and `currentSpeed = 101.08`; and within the band the command does
not depend on `desiredSpeed`. -/
theorem band_exceeds_desiredSpeed :
    (∃ (c : AdaptiveCruiseControl) (obs : LeadVehicle),
        c.state ≠ ACCState.ERROR ∧ c.currentSpeed = c.desiredSpeed ∧
        0 < c.desiredSpeed ∧ c.desiredSpeed < 150 ∧ obs.detected = true ∧
        max 5.0 ((c.currentSpeed / 3.6) * 1.5) ≤ obs.distance ∧
        obs.distance < max 5.0 ((c.currentSpeed / 3.6) * 1.5) + 10 ∧
        0 < (c.update 0.1 obs).accelCommand ∧
        c.desiredSpeed < (c.update 0.1 obs).currentSpeed) ∧
      ((construct.initialise 100).start.currentSpeed = 100 ∧
        (construct.initialise 100).start.desiredSpeed = 100 ∧
        ((construct.initialise 100).start.update 0.1 ⟨45, 120, true⟩).accelCommand = 3.0 ∧
        ((construct.initialise 100).start.update 0.1 ⟨45, 120, true⟩).currentSpeed = 101.08) ∧
      (∀ (c : AdaptiveCruiseControl) (d deltaTime : ℚ) (obs : LeadVehicle),
        c.state ≠ ACCState.ERROR → obs.detected = true →
        max 5.0 ((c.currentSpeed / 3.6) * 1.5) ≤ obs.distance →
        obs.distance < max 5.0 ((c.currentSpeed / 3.6) * 1.5) + 10 →
        (({ c with desiredSpeed := d } : AdaptiveCruiseControl).update deltaTime obs).accelCommand
          = (c.update deltaTime obs).accelCommand) := by
  have e : (construct.initialise 100).start =
      { state := ACCState.ACTIVE, currentSpeed := 100, desiredSpeed := 100, accelCommand := 0,
        leadVehicle := { distance := 0, speed := 0, detected := false } } := by
    norm_num [construct, initialise, start]
  have hacc : ((construct.initialise 100).start.update 0.1 ⟨45, 120, true⟩).accelCommand
      = 3.0 := by
    rw [update_accelCommand, calculateSafeDistance_eq, e, if_neg (by decide), if_pos rfl,
      stdMax_eq_max, stdMin_eq_min]
    norm_num [MAX_ACCELERATION, MAX_DECELERATION]
  have hspd : ((construct.initialise 100).start.update 0.1 ⟨45, 120, true⟩).currentSpeed
      = 101.08 := by
    rw [update_currentSpeed, hacc, e]
    norm_num
  refine ⟨⟨(construct.initialise 100).start, ⟨45, 120, true⟩, ?_, ?_, ?_, ?_, rfl, ?_, ?_, ?_, ?_⟩,
    ⟨by rw [e], by rw [e], hacc, hspd⟩, ?_⟩
  · rw [e]; decide
  · rw [e]
  · rw [e]; norm_num
  · rw [e]; norm_num
  · rw [e]; norm_num
  · rw [e]; norm_num
  · rw [hacc]; norm_num
  · rw [hspd, e]; norm_num
  · intro c d deltaTime obs hs hdet hlo hhi
    have hs' : ({ c with desiredSpeed := d } : AdaptiveCruiseControl).state ≠ ACCState.ERROR := hs
    rw [update_accelCommand, update_accelCommand, calculateSafeDistance_eq,
      calculateSafeDistance_eq, if_neg hs', if_neg hs, if_pos hdet, if_pos hdet,
      if_neg (not_lt.mpr hlo), if_neg (not_lt.mpr hlo), if_pos hhi, if_pos hhi]

/-- C20. Free cruise never settles at the set speed in the harness configuration: starting
from the controller after `initialize(80)`, `setDesiredSpeed(100)`, `start()`, after any
`n ≥ 1` consecutive calls `update(0.1, observation)` whose observations all have
`detected = false`, `currentSpeed` is not 100, `accelCommand` is not 0 (it is 1.5 or -2.5),
`currentSpeed` lies in `[80, 101]` and in `80 + 0.18 ℤ`, and the last call changed the speed
by +0.54 or -0.9. -/
theorem free_cruise_never_settles (obss : List LeadVehicle) (hne : obss ≠ [])
    (hdet : ∀ o ∈ obss, o.detected = false) :
    (run harnessStart (obss.map (Call.update 0.1))).currentSpeed ≠ 100 ∧
      (run harnessStart (obss.map (Call.update 0.1))).accelCommand ≠ 0 ∧
      ((run harnessStart (obss.map (Call.update 0.1))).accelCommand = 1.5 ∨
        (run harnessStart (obss.map (Call.update 0.1))).accelCommand = -2.5) ∧
      80 ≤ (run harnessStart (obss.map (Call.update 0.1))).currentSpeed ∧
      (run harnessStart (obss.map (Call.update 0.1))).currentSpeed ≤ 101 ∧
      (∃ k : ℤ, (run harnessStart (obss.map (Call.update 0.1))).currentSpeed = 80 + 0.18 * k) ∧
      ((run harnessStart (obss.map (Call.update 0.1))).currentSpeed =
          (run harnessStart (obss.dropLast.map (Call.update 0.1))).currentSpeed + 0.54 ∨
        (run harnessStart (obss.map (Call.update 0.1))).currentSpeed =
          (run harnessStart (obss.dropLast.map (Call.update 0.1))).currentSpeed - 0.9) := by
  have hmap : obss.map (Call.update 0.1) =
      obss.dropLast.map (Call.update 0.1) ++ [Call.update 0.1 (obss.getLast hne)] := by
    have h := congrArg (List.map (Call.update 0.1)) (List.dropLast_append_getLast hne)
    rw [List.map_append] at h
    exact h.symm
  have hrun : run harnessStart (obss.map (Call.update 0.1)) =
      (run harnessStart (obss.dropLast.map (Call.update 0.1))).update 0.1 (obss.getLast hne) := by
    rw [hmap, run_append]
    rfl
  have hinv := cruise_run obss.dropLast harnessStart cruiseInv_harnessStart
    (fun o ho => hdet o (List.mem_of_mem_dropLast ho))
  obtain ⟨⟨_, _, hk, hlo, hhi⟩, hacc, hmove⟩ :=
    cruise_step _ (obss.getLast hne) hinv (hdet _ (List.getLast_mem hne))
  rw [hrun]
  refine ⟨?_, ?_, hacc, hlo, hhi, hk, hmove⟩
  · obtain ⟨k, hk⟩ := hk
    rw [hk]
    exact lattice_ne_hundred k
  · rcases hacc with h | h <;> rw [h] <;> norm_num

/-- Three free-cruise cycles of the harness controller, with differing stale distance and
speed fields in the observations. -/
theorem free_cruise_never_settles_witness :
    (run harnessStart ([⟨0, 0, false⟩, ⟨7, 3, false⟩, ⟨0, 0, false⟩].map
        (Call.update 0.1))).currentSpeed ≠ 100 ∧
      (run harnessStart ([⟨0, 0, false⟩, ⟨7, 3, false⟩, ⟨0, 0, false⟩].map
        (Call.update 0.1))).accelCommand ≠ 0 ∧
      80 ≤ (run harnessStart ([⟨0, 0, false⟩, ⟨7, 3, false⟩, ⟨0, 0, false⟩].map
        (Call.update 0.1))).currentSpeed ∧
      (run harnessStart ([⟨0, 0, false⟩, ⟨7, 3, false⟩, ⟨0, 0, false⟩].map
        (Call.update 0.1))).currentSpeed ≤ 101 := by
  have hdet : ∀ o ∈ ([⟨0, 0, false⟩, ⟨7, 3, false⟩, ⟨0, 0, false⟩] : List LeadVehicle),
      o.detected = false := by
    intro o ho
    simp only [List.mem_cons, List.mem_singleton, List.not_mem_nil, or_false] at ho
    rcases ho with h | h | h <;> rw [h]
  have h := free_cruise_never_settles [⟨0, 0, false⟩, ⟨7, 3, false⟩, ⟨0, 0, false⟩]
    (List.cons_ne_nil _ _) hdet
  exact ⟨h.1, h.2.1, h.2.2.2.1, h.2.2.2.2.1⟩

/-! ## The zero-time-step cycle in binary64

Facts about `round64`, then the cycle `update64` with a zero time step: the new speed is the
rounded round trip of the old one through m/s, which is the old speed for some speeds (80)
and not for others (60). -/

theorem roundHalfEven_intCast (m : ℤ) : roundHalfEven (m : ℚ) = m := by
  unfold roundHalfEven
  rw [Int.floor_intCast, sub_self, if_pos (by norm_num)]

theorem roundHalfEven_eq_of_abs_lt (q : ℚ) (m : ℤ) (h : |q - m| < 1 / 2) :
    roundHalfEven q = m := by
  rw [abs_lt] at h
  obtain ⟨hl, hu⟩ := h
  unfold roundHalfEven
  by_cases hq : (m : ℚ) ≤ q
  · have hf : ⌊q⌋ = m := Int.floor_eq_iff.mpr ⟨hq, by linarith⟩
    rw [hf, if_pos hu]
  · have hq' : q < m := not_le.mp hq
    have hf : ⌊q⌋ = m - 1 := Int.floor_eq_iff.mpr ⟨by push_cast; linarith, by push_cast; linarith⟩
    rw [hf, if_neg (by push_cast; linarith), if_pos (by push_cast; linarith)]
    ring

theorem roundHalfEven_bounds (q : ℚ) (lo hi : ℤ) (h₁ : (lo : ℚ) ≤ q) (h₂ : q ≤ hi) :
    lo ≤ roundHalfEven q ∧ roundHalfEven q ≤ hi := by
  have hlo : lo ≤ ⌊q⌋ := Int.le_floor.mpr h₁
  have hfq : (⌊q⌋ : ℚ) ≤ q := Int.floor_le q
  have hfl : ⌊q⌋ ≤ hi := by
    have : (⌊q⌋ : ℚ) ≤ hi := le_trans hfq h₂
    exact_mod_cast this
  unfold roundHalfEven
  by_cases hb : q - ⌊q⌋ < 1 / 2
  · rw [if_pos hb]
    exact ⟨hlo, hfl⟩
  · have hlt : ⌊q⌋ < hi := by
      have : (⌊q⌋ : ℚ) < hi := by linarith [not_lt.mp hb]
      exact_mod_cast this
    rw [if_neg hb]
    split_ifs <;> constructor <;> omega

theorem roundHalfEven_nonneg (q : ℚ) (h : 0 ≤ q) : 0 ≤ roundHalfEven q :=
  (roundHalfEven_bounds q 0 (⌊q⌋ + 1) (by exact_mod_cast h)
    (by push_cast; exact (Int.lt_floor_add_one q).le)).1

theorem two_zpow_pos (e : ℤ) : (0 : ℚ) < 2 ^ e := zpow_pos (by norm_num) e

theorem ulpExponent64_ge (x : ℚ) : -1074 ≤ ulpExponent64 x := by
  unfold ulpExponent64
  have := le_max_right (Int.log 2 |x|) (-1022)
  omega

theorem ulpExponent64_eq (x : ℚ) (e : ℤ) (hlo : (2 : ℚ) ^ e ≤ |x|) (hhi : |x| < (2 : ℚ) ^ (e + 1))
    (hn : -1022 ≤ e) : ulpExponent64 x = e - 52 := by
  have hpos : 0 < |x| := lt_of_lt_of_le (two_zpow_pos e) hlo
  have h1 : e ≤ Int.log 2 |x| :=
    (Int.zpow_le_iff_le_log (by norm_num) hpos).mp (by simpa using hlo)
  have h2 : Int.log 2 |x| < e + 1 :=
    (Int.lt_zpow_iff_log_lt (by norm_num) hpos).mp (by simpa using hhi)
  unfold ulpExponent64
  rw [max_eq_left (by omega)]
  omega

/-- Evaluation of `round64` at a number of the normal range. -/
theorem round64_eq_of (x : ℚ) (e m : ℤ) (hlo : (2 : ℚ) ^ e ≤ |x|) (hhi : |x| < (2 : ℚ) ^ (e + 1))
    (hn : -1022 ≤ e) (hm : |x / 2 ^ (e - 52) - m| < 1 / 2) :
    round64 x = (m : ℚ) * 2 ^ (e - 52) := by
  unfold round64
  rw [ulpExponent64_eq x e hlo hhi hn, roundHalfEven_eq_of_abs_lt _ m hm]

theorem round64_zero : round64 0 = 0 := by
  unfold round64
  rw [zero_div]
  have : roundHalfEven 0 = 0 := by exact_mod_cast roundHalfEven_intCast 0
  rw [this]
  simp

theorem round64_nonneg (x : ℚ) (h : 0 ≤ x) : 0 ≤ round64 x := by
  unfold round64
  have hq : 0 ≤ x / 2 ^ ulpExponent64 x := div_nonneg h (two_zpow_pos _).le
  have hm : (0 : ℚ) ≤ roundHalfEven (x / 2 ^ ulpExponent64 x) := by
    exact_mod_cast roundHalfEven_nonneg _ hq
  exact mul_nonneg hm (two_zpow_pos _).le

/-- A binary64 number is returned unchanged. -/
theorem round64_of_representable (k j : ℤ) (hk : |k| < 2 ^ 53) (hj : -1074 ≤ j) :
    round64 ((k : ℚ) * 2 ^ j) = (k : ℚ) * 2 ^ j := by
  by_cases hk0 : k = 0
  · rw [hk0, Int.cast_zero, zero_mul, round64_zero]
  have hkq : (0 : ℚ) < |(k : ℚ)| := abs_pos.mpr (by exact_mod_cast hk0)
  have hx : 0 < |(k : ℚ) * 2 ^ j| := by
    rw [abs_mul, abs_of_pos (two_zpow_pos j)]
    exact mul_pos hkq (two_zpow_pos j)
  have hlt : |(k : ℚ) * 2 ^ j| < (2 : ℚ) ^ (53 + j) := by
    rw [abs_mul, abs_of_pos (two_zpow_pos j), zpow_add₀ (by norm_num)]
    have : |(k : ℚ)| < 2 ^ (53 : ℤ) := by
      have h : ((|k| : ℤ) : ℚ) < ((2 ^ 53 : ℤ) : ℚ) := by exact_mod_cast hk
      rw [Int.cast_abs] at h
      norm_num at h ⊢
      exact h
    exact mul_lt_mul_of_pos_right this (two_zpow_pos j)
  have hlog : Int.log 2 |(k : ℚ) * 2 ^ j| < 53 + j :=
    (Int.lt_zpow_iff_log_lt (by norm_num) hx).mp (by simpa using hlt)
  have he : ulpExponent64 ((k : ℚ) * 2 ^ j) ≤ j := by
    unfold ulpExponent64
    have := max_le (show Int.log 2 |(k : ℚ) * 2 ^ j| ≤ j + 52 by omega)
      (show (-1022 : ℤ) ≤ j + 52 by omega)
    omega
  unfold round64
  generalize ulpExponent64 ((k : ℚ) * 2 ^ j) = e at he
  obtain ⟨n, hn⟩ : ∃ n : ℕ, j = e + n := ⟨(j - e).toNat, by omega⟩
  have hq : (k : ℚ) * 2 ^ j / 2 ^ e = ((k * 2 ^ n : ℤ) : ℚ) := by
    rw [hn, zpow_add₀ (by norm_num), zpow_natCast]
    push_cast
    field_simp
    ring
  rw [hq, roundHalfEven_intCast, hn, zpow_add₀ (by norm_num), zpow_natCast]
  push_cast
  ring

/-- Every result of `round64` is a binary64 number. -/
theorem round64_representable (x : ℚ) :
    ∃ k j : ℤ, |k| < 2 ^ 53 ∧ -1074 ≤ j ∧ round64 x = (k : ℚ) * 2 ^ j := by
  have he := ulpExponent64_ge x
  have hq : |x / 2 ^ ulpExponent64 x| ≤ 2 ^ (53 : ℤ) := by
    by_cases hx0 : x = 0
    · rw [hx0, zero_div, abs_zero]; positivity
    have hx : 0 < |x| := abs_pos.mpr hx0
    have h1 : |x| < (2 : ℚ) ^ (Int.log 2 |x| + 1) := by
      simpa using Int.lt_zpow_succ_log_self (b := 2) (by norm_num) |x|
    have h2 : Int.log 2 |x| + 1 ≤ ulpExponent64 x + 53 := by
      unfold ulpExponent64
      have := le_max_left (Int.log 2 |x|) (-1022)
      omega
    have h3 : (2 : ℚ) ^ (Int.log 2 |x| + 1) ≤ 2 ^ (ulpExponent64 x + 53) :=
      zpow_le_zpow_right₀ (by norm_num) h2
    rw [abs_div, abs_of_pos (two_zpow_pos _), div_le_iff₀ (two_zpow_pos _),
      ← zpow_add₀ (by norm_num), add_comm]
    exact (lt_of_lt_of_le h1 h3).le
  rw [abs_le] at hq
  have hb := roundHalfEven_bounds (x / 2 ^ ulpExponent64 x) (-2 ^ 53) (2 ^ 53)
    (by push_cast; norm_num at hq ⊢; exact hq.1) (by push_cast; norm_num at hq ⊢; exact hq.2)
  unfold round64
  generalize roundHalfEven (x / 2 ^ ulpExponent64 x) = m at hb
  generalize ulpExponent64 x = e at he
  by_cases hm : |m| < 2 ^ 53
  · exact ⟨m, e, hm, he, rfl⟩
  · rw [abs_lt, not_and_or] at hm
    rcases hm with hm | hm
    · have : m = -2 ^ 53 := by omega
      refine ⟨-2 ^ 52, e + 1, by norm_num, by omega, ?_⟩
      rw [this, zpow_add₀ (by norm_num)]
      push_cast
      ring
    · have : m = 2 ^ 53 := by omega
      refine ⟨2 ^ 52, e + 1, by norm_num, by omega, ?_⟩
      rw [this, zpow_add₀ (by norm_num)]
      push_cast
      ring

/-- Rounding twice is rounding once. -/
theorem round64_round64 (x : ℚ) : round64 (round64 x) = round64 x := by
  obtain ⟨k, j, hk, hj, h⟩ := round64_representable x
  rw [h, round64_of_representable k j hk hj]

theorem lit3_6_eq : lit3_6 = 8106479329266893 / 2 ^ 51 := by
  unfold lit3_6
  rw [round64_eq_of 3.6 1 8106479329266893 (by norm_num [abs_of_pos])
    (by norm_num [abs_of_pos]) (by norm_num) (by rw [abs_lt]; norm_num)]
  norm_num

theorem lit3_6_pos : 0 < lit3_6 := by
  rw [lit3_6_eq]; norm_num

/-- The rounded round trip km/h → m/s → km/h of a speed, as `updateSpeed` computes it. -/
theorem roundTrip64_60 : mul64 (div64 60 lit3_6) lit3_6 = 60 + 1 / 2 ^ 47 := by
  have hd : div64 60 lit3_6 = 4691249611844267 / 2 ^ 48 := by
    unfold div64
    rw [lit3_6_eq, round64_eq_of _ 4 4691249611844267 (by norm_num [abs_of_pos])
      (by norm_num [abs_of_pos]) (by norm_num) (by rw [abs_lt]; norm_num)]
    norm_num
  unfold mul64
  rw [hd, lit3_6_eq, round64_eq_of _ 5 8444249301319681 (by norm_num [abs_of_pos])
    (by norm_num [abs_of_pos]) (by norm_num) (by rw [abs_lt]; norm_num)]
  norm_num

theorem roundTrip64_80 : mul64 (div64 80 lit3_6) lit3_6 = 80 := by
  have hd : div64 80 lit3_6 = 3127499741229511 / 2 ^ 47 := by
    unfold div64
    rw [lit3_6_eq, round64_eq_of _ 4 6254999482459022 (by norm_num [abs_of_pos])
      (by norm_num [abs_of_pos]) (by norm_num) (by rw [abs_lt]; norm_num)]
    norm_num
  unfold mul64
  rw [hd, lit3_6_eq, round64_eq_of _ 6 5629499534213120 (by norm_num [abs_of_pos])
    (by norm_num [abs_of_pos]) (by norm_num) (by rw [abs_lt]; norm_num)]
  norm_num

theorem updateSpeed64_state (c : AdaptiveCruiseControl) (dt : ℚ) :
    (c.updateSpeed64 dt).state = c.state := by
  simp only [updateSpeed64]; split_ifs <;> rfl

theorem updateSpeed64_desiredSpeed (c : AdaptiveCruiseControl) (dt : ℚ) :
    (c.updateSpeed64 dt).desiredSpeed = c.desiredSpeed := by
  simp only [updateSpeed64]; split_ifs <;> rfl

theorem updateSpeed64_accelCommand (c : AdaptiveCruiseControl) (dt : ℚ) :
    (c.updateSpeed64 dt).accelCommand = c.accelCommand := by
  simp only [updateSpeed64]; split_ifs <;> rfl

theorem updateSpeed64_leadVehicle (c : AdaptiveCruiseControl) (dt : ℚ) :
    (c.updateSpeed64 dt).leadVehicle = c.leadVehicle := by
  simp only [updateSpeed64]; split_ifs <;> rfl

/-- With a zero time step `updateSpeed` stores the rounded round trip of a non-negative
speed, clamped at `MAX_SPEED`. -/
theorem updateSpeed64_zero_currentSpeed (c : AdaptiveCruiseControl) (h0 : 0 ≤ c.currentSpeed) :
    (c.updateSpeed64 0).currentSpeed =
      if mul64 (div64 c.currentSpeed lit3_6) lit3_6 > MAX_SPEED then MAX_SPEED
      else mul64 (div64 c.currentSpeed lit3_6) lit3_6 := by
  have hmul : mul64 c.accelCommand 0 = 0 := by
    unfold mul64; rw [mul_zero, round64_zero]
  have hadd : add64 (div64 c.currentSpeed lit3_6) 0 = div64 c.currentSpeed lit3_6 := by
    unfold add64 div64; rw [add_zero, round64_round64]
  have hnn : (0 : ℚ) ≤ div64 c.currentSpeed lit3_6 :=
    round64_nonneg _ (div_nonneg h0 lit3_6_pos.le)
  have z : (0.0 : ℚ) = 0 := by norm_num
  simp only [updateSpeed64, hmul, hadd, stdMax_eq_max, z, max_eq_right hnn]
  split_ifs <;> rfl

theorem updateAccelerationCommand64_state (c : AdaptiveCruiseControl) :
    c.updateAccelerationCommand64.state = c.state := by
  simp only [updateAccelerationCommand64]; split_ifs <;> rfl

theorem updateAccelerationCommand64_currentSpeed (c : AdaptiveCruiseControl) :
    c.updateAccelerationCommand64.currentSpeed = c.currentSpeed := by
  simp only [updateAccelerationCommand64]; split_ifs <;> rfl

theorem updateAccelerationCommand64_desiredSpeed (c : AdaptiveCruiseControl) :
    c.updateAccelerationCommand64.desiredSpeed = c.desiredSpeed := by
  simp only [updateAccelerationCommand64]; split_ifs <;> rfl

theorem updateAccelerationCommand64_leadVehicle (c : AdaptiveCruiseControl) :
    c.updateAccelerationCommand64.leadVehicle = c.leadVehicle := by
  simp only [updateAccelerationCommand64]; split_ifs <;> rfl

/-- The command depends on the controller only through its state, its two speeds and the
stored observation, not through the previous command. -/
theorem updateAccelerationCommand64_congr (a b : AdaptiveCruiseControl)
    (h₁ : a.state = b.state) (h₂ : a.currentSpeed = b.currentSpeed)
    (h₃ : a.desiredSpeed = b.desiredSpeed) (h₅ : a.leadVehicle = b.leadVehicle) :
    a.updateAccelerationCommand64.accelCommand = b.updateAccelerationCommand64.accelCommand := by
  obtain ⟨s, v, d, k, l⟩ := a
  obtain ⟨s', v', d', k', l'⟩ := b
  simp only at h₁ h₂ h₃ h₅
  subst h₁ h₂ h₃ h₅
  simp only [updateAccelerationCommand64, calculateSafeDistance64]

/-- The command of a binary64 cycle without a detected lead vehicle, outside Error. -/
theorem update64_accelCommand_not_detected (c : AdaptiveCruiseControl) (dt : ℚ)
    (obs : LeadVehicle) (hs : c.state ≠ ACCState.ERROR) (hdet : obs.detected = false) :
    (c.update64 dt obs).accelCommand =
      if c.currentSpeed < c.desiredSpeed then div64 MAX_ACCELERATION 2
      else if c.currentSpeed > c.desiredSpeed then div64 MAX_DECELERATION 2
      else 0 := by
  have z : (0.0 : ℚ) = 0 := by norm_num
  simp only [update64, updateSpeed64_accelCommand, updateAccelerationCommand64,
    updateLeadVehicle, if_neg hs, hdet, Bool.false_eq_true, if_false]
  split_ifs <;> first | rfl | exact z

theorem update64_state (c : AdaptiveCruiseControl) (dt : ℚ) (obs : LeadVehicle) :
    (c.update64 dt obs).state = c.state := by
  simp only [update64, updateSpeed64_state, updateAccelerationCommand64_state, updateLeadVehicle]

theorem update64_desiredSpeed (c : AdaptiveCruiseControl) (dt : ℚ) (obs : LeadVehicle) :
    (c.update64 dt obs).desiredSpeed = c.desiredSpeed := by
  simp only [update64, updateSpeed64_desiredSpeed, updateAccelerationCommand64_desiredSpeed,
    updateLeadVehicle]

theorem update64_leadVehicle (c : AdaptiveCruiseControl) (dt : ℚ) (obs : LeadVehicle) :
    (c.update64 dt obs).leadVehicle = obs := by
  simp only [update64, updateSpeed64_leadVehicle, updateAccelerationCommand64_leadVehicle,
    updateLeadVehicle]

/-- The speed after a binary64 cycle with a zero time step. -/
theorem update64_zero_currentSpeed (c : AdaptiveCruiseControl) (obs : LeadVehicle)
    (h0 : 0 ≤ c.currentSpeed) :
    (c.update64 0 obs).currentSpeed =
      if mul64 (div64 c.currentSpeed lit3_6) lit3_6 > MAX_SPEED then MAX_SPEED
      else mul64 (div64 c.currentSpeed lit3_6) lit3_6 := by
  have h := updateSpeed64_zero_currentSpeed
    (c.updateLeadVehicle obs.distance obs.speed obs.detected).updateAccelerationCommand64
    (by rw [updateAccelerationCommand64_currentSpeed]; exact h0)
  rw [updateAccelerationCommand64_currentSpeed] at h
  exact h

/-- C13, as stated, fails of the program: the claim is that for a speed in `[0, 150]`
`update(0, observation)` leaves `currentSpeed` unchanged and that a second such call leaves
`accelCommand` as the first left it.  In binary64, after `initialize(60.0)` the call
`update(0, {0, 0, false})` stores the speed `60 + 2⁻⁴⁷` (printed 60.00000000000001) with
command 0, and the second call, now seeing a speed above the desired speed 60, stores the
command -2.5. -/
theorem update64_zero_moves_speed :
    (0 : ℚ) ≤ (construct.initialise 60.0).currentSpeed ∧
      (construct.initialise 60.0).currentSpeed ≤ 150 ∧
      ((construct.initialise 60.0).update64 0 ⟨0, 0, false⟩).currentSpeed = 60 + 1 / 2 ^ 47 ∧
      ((construct.initialise 60.0).update64 0 ⟨0, 0, false⟩).currentSpeed
        ≠ (construct.initialise 60.0).currentSpeed ∧
      ((construct.initialise 60.0).update64 0 ⟨0, 0, false⟩).accelCommand = 0 ∧
      (((construct.initialise 60.0).update64 0 ⟨0, 0, false⟩).update64 0
        ⟨0, 0, false⟩).accelCommand = -2.5 ∧
      (((construct.initialise 60.0).update64 0 ⟨0, 0, false⟩).update64 0
        ⟨0, 0, false⟩).accelCommand
        ≠ ((construct.initialise 60.0).update64 0 ⟨0, 0, false⟩).accelCommand := by
  have hs : (construct.initialise 60.0).state ≠ ACCState.ERROR := by
    simp only [initialise]; decide
  have hc : (construct.initialise 60.0).currentSpeed = 60 := by
    simp only [initialise]; norm_num
  have hd : (construct.initialise 60.0).desiredSpeed = 60 := by
    simp only [initialise]; norm_num
  have hv := update64_zero_currentSpeed (construct.initialise 60.0) ⟨0, 0, false⟩
    (by rw [hc]; norm_num)
  rw [hc, roundTrip64_60, if_neg (by norm_num [MAX_SPEED])] at hv
  have ha := update64_accelCommand_not_detected (construct.initialise 60.0) 0 ⟨0, 0, false⟩
    hs rfl
  rw [hc, hd, if_neg (lt_irrefl _), if_neg (lt_irrefl _)] at ha
  have hhalf : div64 MAX_DECELERATION 2 = -2.5 := by
    unfold div64
    have h := round64_of_representable (-5) (-1) (by norm_num) (by norm_num)
    have hx : MAX_DECELERATION / 2 = ((-5 : ℤ) : ℚ) * 2 ^ (-1 : ℤ) := by
      norm_num [MAX_DECELERATION]
    rw [hx, h]
    norm_num
  have ha₂ := update64_accelCommand_not_detected
    ((construct.initialise 60.0).update64 0 ⟨0, 0, false⟩) 0 ⟨0, 0, false⟩
    (by rw [update64_state]; exact hs) rfl
  rw [hv, update64_desiredSpeed, hd, if_neg (by norm_num), if_pos (by norm_num), hhalf] at ha₂
  refine ⟨by rw [hc]; norm_num, by rw [hc]; norm_num, hv, ?_, ha, ha₂, ?_⟩
  · rw [hv, hc]; norm_num
  · rw [ha₂, ha]; norm_num

/-- C13, amended: for every controller whose speed `v` satisfies `0 ≤ v ≤ 150` and whose
round trip km/h → m/s → km/h is exact in binary64, that is `fl(fl(v / 3.6) * 3.6) = v`, and for
every observation, `update(0, observation)` leaves `currentSpeed` unchanged, and so does
calling it twice in a row; the second call leaves `accelCommand` and every other field as they
were after the first call. -/
theorem update64_zero_idempotent (c : AdaptiveCruiseControl) (obs : LeadVehicle)
    (h0 : 0 ≤ c.currentSpeed) (h1 : c.currentSpeed ≤ 150)
    (htrip : mul64 (div64 c.currentSpeed lit3_6) lit3_6 = c.currentSpeed) :
    (c.update64 0 obs).currentSpeed = c.currentSpeed ∧
      ((c.update64 0 obs).update64 0 obs).currentSpeed = c.currentSpeed ∧
      (c.update64 0 obs).update64 0 obs = c.update64 0 obs := by
  have hM : MAX_SPEED = 150 := by norm_num [MAX_SPEED]
  have step : ∀ d : AdaptiveCruiseControl, d.currentSpeed = c.currentSpeed →
      (d.update64 0 obs).currentSpeed = c.currentSpeed := by
    intro d hd
    rw [update64_zero_currentSpeed d obs (by rw [hd]; exact h0), hd, htrip, hM,
      if_neg (not_lt.mpr h1)]
  have hv := step c rfl
  have hv₂ := step (c.update64 0 obs) hv
  refine ⟨hv, hv₂, ?_⟩
  apply eq_of_fields
  · rw [update64_state]
  · rw [hv₂, hv]
  · rw [update64_desiredSpeed]
  · simp only [update64, updateSpeed64_accelCommand]
    apply updateAccelerationCommand64_congr
    · simp only [updateLeadVehicle, updateSpeed64_state, updateAccelerationCommand64_state]
    · have h := hv
      simp only [update64] at h
      simp only [updateLeadVehicle] at h ⊢
      rw [h]
    · simp only [updateLeadVehicle, updateSpeed64_desiredSpeed,
        updateAccelerationCommand64_desiredSpeed]
    · simp only [updateLeadVehicle]
  · rw [update64_leadVehicle, update64_leadVehicle]

/-- The harness speed 80 has an exact round trip: in binary64 a zero-step cycle on the
harness controller with the observation `{20, 70, true}` keeps the speed at 80, and a second
such cycle changes nothing. -/
theorem update64_zero_idempotent_witness :
    (0 : ℚ) ≤ harnessStart.currentSpeed ∧ harnessStart.currentSpeed ≤ 150 ∧
      mul64 (div64 harnessStart.currentSpeed lit3_6) lit3_6 = harnessStart.currentSpeed ∧
      (harnessStart.update64 0 ⟨20, 70, true⟩).currentSpeed = 80 ∧
      ((harnessStart.update64 0 ⟨20, 70, true⟩).update64 0 ⟨20, 70, true⟩).currentSpeed = 80 ∧
      (harnessStart.update64 0 ⟨20, 70, true⟩).update64 0 ⟨20, 70, true⟩ =
        harnessStart.update64 0 ⟨20, 70, true⟩ := by
  have hv : harnessStart.currentSpeed = 80 := by rw [harnessStart_eq]
  have h0 : (0 : ℚ) ≤ harnessStart.currentSpeed := by rw [hv]; norm_num
  have h1 : harnessStart.currentSpeed ≤ 150 := by rw [hv]; norm_num
  have ht : mul64 (div64 harnessStart.currentSpeed lit3_6) lit3_6 = harnessStart.currentSpeed := by
    rw [hv]; exact roundTrip64_80
  have h := update64_zero_idempotent harnessStart ⟨20, 70, true⟩ h0 h1 ht
  exact ⟨h0, h1, ht, h.1.trans hv, h.2.1.trans hv, h.2.2⟩

end ACC
